import Mathlib

/-!
# A verification development of the Wavefront OBJ loader `obj`

Shallow embedding of `obj.go`.

* A Go `string` is the list of its characters (`GoString`).  The program only
  ever looks for the ASCII characters `/`, space and newline, trims Unicode
  white space and hands segments to `strconv`, so the embedding covers every
  valid UTF-8 input.
* A call that may return an `error` or panic returns a `Result`: `ok`, `error`
  with the formatted message, or `panic` (index or slice out of range, nil
  dereference).
* `uint32` and `uint64` values are natural numbers with explicit reduction
  modulo `2^32` and `2^64`.
* `strconv.ParseInt` is embedded from the Go standard library, for base 10.
* `float32` values and `strconv.ParseFloat` are a parameter (`Float32Ops`).
* A pointer is an index: `subMesh` into `mesh.SubMeshes`, a `*Material` of
  `parseMaterials` into the list of the materials allocated so far.
-/

namespace Obj

/-- A Go string, as the list of its characters. -/
abbrev GoString := List Char

/-- Outcome of a Go call returning `(T, error)`: a value, an error carrying its
message, or a run-time panic. -/
inductive Result (α : Type) where
  | ok : α → Result α
  | error : GoString → Result α
  | panic : Result α
  deriving DecidableEq, Repr

/-- Sequencing of fallible calls: the first error or panic is returned. -/
def Result.bind {α β : Type} (r : Result α) (f : α → Result β) : Result β :=
  match r with
  | Result.ok a => f a
  | Result.error e => Result.error e
  | Result.panic => Result.panic

/-- The outcome is an error (neither a value nor a panic). -/
def Result.isError {α : Type} : Result α → Bool
  | Result.error _ => true
  | _ => false

/-- The outcome is a value. -/
def Result.isOk {α : Type} : Result α → Bool
  | Result.ok _ => true
  | _ => false

/-! ## Go library functions used by the program -/

/-- Go `strings.Index(s, string(c))` for a one-character separator: the index of
the first `c` in `s`, or `-1`. -/
def Index (s : GoString) (c : Char) : Int :=
  match s with
  | [] => -1
  | x :: xs => if x = c then 0 else (if Index xs c = -1 then -1 else Index xs c + 1)

/-- Go slice expression `s[lo:hi]`; `none` is the out-of-range panic. -/
def slice (s : GoString) (lo hi : Int) : Option GoString :=
  if 0 ≤ lo ∧ lo ≤ hi ∧ hi ≤ (s.length : Int) then
    some ((s.drop lo.toNat).take (hi.toNat - lo.toNat))
  else none

/-- Go slice expression `s[lo:]`. -/
def sliceFrom (s : GoString) (lo : Int) : Option GoString :=
  slice s lo s.length

/-- Go slice expression `s[:hi]`. -/
def sliceTo (s : GoString) (hi : Int) : Option GoString :=
  slice s 0 hi

/-- Go `strings.Split(s, string(sep))` for a one-character separator. -/
def Split (s : GoString) (sep : Char) : List GoString :=
  match s with
  | [] => [[]]
  | c :: cs =>
    if c = sep then [] :: Split cs sep
    else
      match Split cs sep with
      | [] => [[c]]
      | h :: t => (c :: h) :: t

/-- Go `unicode.IsSpace`. -/
def isSpace (c : Char) : Bool :=
  let n := c.toNat
  n = 0x09 || n = 0x0A || n = 0x0B || n = 0x0C || n = 0x0D || n = 0x20 ||
  n = 0x85 || n = 0xA0 || n = 0x1680 || (0x2000 ≤ n && n ≤ 0x200A) ||
  n = 0x2028 || n = 0x2029 || n = 0x202F || n = 0x205F || n = 0x3000

/-- Go `strings.TrimSpace`. -/
def TrimSpace (s : GoString) : GoString :=
  ((s.dropWhile isSpace).reverse.dropWhile isSpace).reverse

/-- The two error kinds of `strconv`. -/
inductive NumError where
  | ErrSyntax
  | ErrRange
  deriving DecidableEq, Repr

/-- The test `'0' <= c && c <= '9'` of `strconv.ParseUint`. -/
def isDigit (c : Char) : Bool :=
  decide ('0'.toNat ≤ c.toNat) && decide (c.toNat ≤ '9'.toNat)

/-- The value `c - '0'` of a digit. -/
def digitVal (c : Char) : Nat := c.toNat - '0'.toNat

/-- The constant `maxUint64/10 + 1` of `strconv.ParseUint` in base 10. -/
def cutoff64 : Nat := (2 ^ 64 - 1) / 10 + 1

/-- The loop of `strconv.ParseUint(s, 10, bitSize)` over the characters of `s`,
with the accumulator `n` a `uint64` and `maxVal = 1<<bitSize - 1`. -/
def parseUintLoop (maxVal : Nat) : GoString → Nat → Nat × Option NumError
  | [], n => (n, none)
  | c :: cs, n =>
    if isDigit c then
      if cutoff64 ≤ n then (maxVal, some NumError.ErrRange)
      else
        let n10 := (n * 10) % 2 ^ 64
        let n1 := (n10 + digitVal c) % 2 ^ 64
        if n1 < n10 ∨ maxVal < n1 then (maxVal, some NumError.ErrRange)
        else parseUintLoop maxVal cs n1
    else (0, some NumError.ErrSyntax)

/-- Go `strconv.ParseUint(s, 10, bitSize)`: the value and the error (`none` is
a nil error). -/
def ParseUint (s : GoString) (bitSize : Nat) : Nat × Option NumError :=
  match s with
  | [] => (0, some NumError.ErrSyntax)
  | _ :: _ => parseUintLoop (2 ^ bitSize - 1) s 0

/-- The second half of `strconv.ParseInt`, "convert unsigned and check range":
from the sign `neg` and the result `r` of `ParseUint` to the result of
`ParseInt`. -/
def checkRange (neg : Bool) (r : Nat × Option NumError) (bitSize : Nat) :
    Int × Option NumError :=
  if r.2 = some NumError.ErrSyntax then (0, r.2)
  else
    let cutoff : Nat := 2 ^ (bitSize - 1)
    if neg = false ∧ cutoff ≤ r.1 then ((cutoff : Int) - 1, some NumError.ErrRange)
    else if neg = true ∧ cutoff < r.1 then (-(cutoff : Int), some NumError.ErrRange)
    else (if neg then -(r.1 : Int) else (r.1 : Int), none)

/-- Go `strconv.ParseInt(s, 10, bitSize)`: the value and the error (`none` is a
nil error). -/
def ParseInt (s : GoString) (bitSize : Nat) : Int × Option NumError :=
  match s with
  | [] => (0, some NumError.ErrSyntax)
  | c :: cs =>
    if c = '+' then checkRange false (ParseUint cs bitSize) bitSize
    else if c = '-' then checkRange true (ParseUint cs bitSize) bitSize
    else checkRange false (ParseUint s bitSize) bitSize

/-- Go conversion `uint32(z)` of an `int64`. -/
def uint32 (z : Int) : Nat := (z % (2 ^ 32 : Int)).toNat

/-- Subtraction of `uint32` values, wrapping around. -/
def sub32 (a b : Nat) : Nat := (a + (2 ^ 32 - b % 2 ^ 32)) % 2 ^ 32

/-- Character of the decimal digit `d`. -/
def digitChar (d : Nat) : Char := Char.ofNat ('0'.toNat + d)

/-- Digits of `n`, most significant first, put in front of `acc`; `fuel` bounds
the number of digits. -/
def numeralAux : Nat → Nat → GoString → GoString
  | 0, _, acc => acc
  | fuel + 1, n, acc =>
    if n < 10 then digitChar n :: acc
    else numeralAux fuel (n / 10) (digitChar (n % 10) :: acc)

/-- Decimal numeral of a natural number, the `%v` of a non-negative `int`. -/
def natNumeral (n : Nat) : GoString := numeralAux (n + 1) n []

/-- Go `fmt`, verb `%v`, of a `[]string`: the elements between brackets,
separated by spaces. -/
def fmtStrings (args : List GoString) : GoString :=
  '[' :: (List.intercalate [' '] args ++ [']'])

/-! ## Faces -/

/-- A Go array `[3]uint32`. -/
structure Arr3 where
  e0 : Nat
  e1 : Nat
  e2 : Nat
  deriving DecidableEq, Repr

/-- Element `a[i]`. -/
def Arr3.get (a : Arr3) (i : Nat) : Nat :=
  match i with
  | 0 => a.e0
  | 1 => a.e1
  | _ => a.e2

/-- Assignment `a[i] = x`; `none` is the index-out-of-range panic. -/
def Arr3.set (a : Arr3) (i : Nat) (x : Nat) : Option Arr3 :=
  match i with
  | 0 => some { a with e0 := x }
  | 1 => some { a with e1 := x }
  | 2 => some { a with e2 := x }
  | _ => none

/-- The array literal `[3]uint32{0, 0, 0}`. -/
def Arr3.zero : Arr3 := ⟨0, 0, 0⟩

/-- The struct `Face`. -/
structure Face where
  v : Arr3
  t : Arr3
  n : Arr3
  deriving DecidableEq, Repr

/-- Constructor `newFaceV`. -/
def newFaceV (v : Arr3) : Face := ⟨v, Arr3.zero, Arr3.zero⟩

/-- Constructor `newFaceVT`. -/
def newFaceVT (v t : Arr3) : Face := ⟨v, t, Arr3.zero⟩

/-- Constructor `newFaceVN`. -/
def newFaceVN (v n : Arr3) : Face := ⟨v, Arr3.zero, n⟩

/-- Constructor `newFaceVTN`. -/
def newFaceVTN (v t n : Arr3) : Face := ⟨v, t, n⟩

/-- The strings `vStr`, `tStr`, `nStr` that one iteration of the loop of
`parseFace` cuts out of the token `str` (lines 247 to 272); `none` is a slice
out of range.  Without a `/` the program also sets `secondIdx = len(str) - 1`,
a value it never reads. -/
def faceSegments (str : GoString) : Option (GoString × GoString × GoString) :=
  let firstIdx := Index str '/'
  if firstIdx ≠ -1 then
    match sliceFrom str (firstIdx + 1) with
    | none => none
    | some rest =>
      let secondIdx0 := Index rest '/'
      let secondIdx := if secondIdx0 ≠ -1 then secondIdx0 + (firstIdx + 1) else secondIdx0
      match sliceTo str firstIdx with
      | none => none
      | some vStr =>
        if secondIdx = -1 then
          match sliceFrom str (firstIdx + 1) with
          | none => none
          | some tStr => some (vStr, tStr, [])
        else
          match slice str (firstIdx + 1) secondIdx, sliceFrom str (secondIdx + 1) with
          | some tStr, some nStr => some (vStr, tStr, nStr)
          | _, _ => none
  else some (str, [], [])

/-- The variables of `parseFace` that live across iterations of its loop. -/
structure FaceLoop where
  v : Arr3
  t : Arr3
  n : Arr3
  hasT : Bool
  hasN : Bool
  deriving DecidableEq, Repr

/-- Lift an operation that may panic. -/
def orPanic {α : Type} : Option α → Result α
  | some a => Result.ok a
  | none => Result.panic

/-- Message of `fmt.Errorf(what + " %v, index %v", args, i)`. -/
def faceErr (what : GoString) (args : List GoString) (i : Nat) : GoString :=
  what ++ [' '] ++ fmtStrings args ++ ", index ".toList ++ natNumeral i

/-- One slot of an iteration: parse the segment, store `uint32(idx) - 1`
at index `i`. -/
def storeIndex (what : GoString) (args : List GoString) (i : Nat) (seg : GoString)
    (a : Arr3) : Result Arr3 :=
  let r := ParseInt seg 32
  if r.2 ≠ none then Result.error (faceErr what args i)
  else orPanic (a.set i (sub32 (uint32 r.1) 1))

/-- One iteration of the loop of `parseFace`, for the token `str = args[i]`. -/
def parseFaceStep (args : List GoString) (i : Nat) (str : GoString) (st : FaceLoop) :
    Result FaceLoop :=
  (orPanic (faceSegments str)).bind fun segs =>
    let vStr := segs.1
    let tStr := segs.2.1
    let nStr := segs.2.2
    let hasT := decide (0 < tStr.length)
    let hasN := decide (0 < nStr.length)
    (storeIndex "Couldn't parse vert".toList args i vStr st.v).bind fun v =>
      (if hasT then storeIndex "Couldn't parse tex".toList args i tStr st.t
        else Result.ok st.t).bind fun t =>
        (if hasN then storeIndex "Couldn't parse normal".toList args i nStr st.n
          else Result.ok st.n).bind fun n =>
          Result.ok ⟨v, t, n, hasT, hasN⟩

/-- The loop `for i, _ := range args` of `parseFace`, from index `i` on. -/
def parseFaceLoop (args : List GoString) : List GoString → Nat → FaceLoop → Result FaceLoop
  | [], _, st => Result.ok st
  | str :: rest, i, st =>
    (parseFaceStep args i str st).bind fun st1 => parseFaceLoop args rest (i + 1) st1

/-- The function `parseFace`. -/
def parseFace (args : List GoString) : Result Face :=
  if args.length ≠ 3 then
    Result.error ("Expected only three arguments but found: ".toList ++ fmtStrings args ++
      ", (".toList ++ natNumeral args.length ++ [')'])
  else
    (parseFaceLoop args args 0 ⟨Arr3.zero, Arr3.zero, Arr3.zero, false, false⟩).bind fun st =>
      if st.hasT = false ∧ st.hasN = false then Result.ok (newFaceV st.v)
      else if st.hasT = true ∧ st.hasN = false then Result.ok (newFaceVT st.v st.t)
      else if st.hasT = false ∧ st.hasN = true then Result.ok (newFaceVN st.v st.n)
      else Result.ok (newFaceVTN st.v st.t st.n)

/-! ## Vertices, materials and meshes

`float32` values are kept abstract: the type `F` and the two operations the
program needs come as a parameter. -/

/-- The `float32` operations of the program: the literal `0` and
`float32(f)` for the result `f` of `strconv.ParseFloat(s, 32)`, `none` when
`ParseFloat` returns an error. -/
structure Float32Ops (F : Type) where
  zero : F
  parse : GoString → Option F

/-- The type `Vec3`, a Go array `[3]float32`; `Vertex` is the same type. -/
structure Vec3 (F : Type) where
  e0 : F
  e1 : F
  e2 : F
  deriving DecidableEq, Repr

/-- Assignment `v[i] = x`; `none` is the index-out-of-range panic. -/
def Vec3.set {F : Type} (a : Vec3 F) (i : Nat) (x : F) : Option (Vec3 F) :=
  match i with
  | 0 => some { a with e0 := x }
  | 1 => some { a with e1 := x }
  | 2 => some { a with e2 := x }
  | _ => none

/-- The type `Vertex`. -/
abbrev Vertex (F : Type) := Vec3 F

/-- The type `Colour`, a Go array `[4]float32`. -/
structure Colour (F : Type) where
  e0 : F
  e1 : F
  e2 : F
  e3 : F
  deriving DecidableEq, Repr

/-- The struct `Material`. -/
structure Material (F : Type) where
  Name : GoString
  Diffuse : Colour F
  deriving DecidableEq, Repr

/-- A Go `map[string]*Material`, read only: the entries, the first entry of a
key being the one the map holds.  The nil map and the empty map are `[]`. -/
abbrev MaterialMap (F : Type) := List (GoString × Material F)

/-- The struct `SubMesh`; a nil `Material` pointer is `none`. -/
structure SubMesh (F : Type) where
  MaterialName : GoString
  Material : Option (Material F)
  Faces : List Face
  deriving DecidableEq, Repr

/-- The struct `ObjMesh`. -/
structure ObjMesh (F : Type) where
  name : GoString
  materials : MaterialMap F
  Verts : List (Vertex F)
  Normals : List (Vertex F)
  SubMeshes : List (SubMesh F)
  deriving DecidableEq, Repr

/-- The function `parseMaterialName`. -/
def parseMaterialName (args : List GoString) : Result GoString :=
  match args with
  | [a] => Result.ok a
  | _ => Result.error "Expected only one argument".toList

/-- The function `parseObjectName`. -/
def parseObjectName (args : List GoString) : Result GoString :=
  match args with
  | [a] => Result.ok a
  | _ => Result.error "Expected only one argument".toList

/-- The loop `for i, _ := range args` of `parseVertex`, from index `i` on. -/
def parseVertexLoop {F : Type} (fl : Float32Ops F) :
    List GoString → Nat → Vec3 F → Result (Vec3 F)
  | [], _, v => Result.ok v
  | a :: rest, i, v =>
    match fl.parse a with
    | none => Result.error ("Couldn't parse element ".toList ++ natNumeral i)
    | some f => (orPanic (v.set i f)).bind fun v1 => parseVertexLoop fl rest (i + 1) v1

/-- The function `parseVertex`.  With an error the program also returns the
vertex filled so far, which no caller reads; the embedding keeps the error. -/
def parseVertex {F : Type} (fl : Float32Ops F) (args : List GoString) : Result (Vertex F) :=
  if args.length ≠ 3 then
    Result.error ("Expected only three arguments but found: ".toList ++ fmtStrings args ++
      ", (".toList ++ natNumeral args.length ++ [')'])
  else parseVertexLoop fl args 0 ⟨fl.zero, fl.zero, fl.zero⟩

/-- The variables of `parseObj` that live across iterations of its loop: the
mesh, and the pointer `subMesh`, which is nil (`none`) or points at the entry
of `mesh.SubMeshes` with the given index. -/
structure ObjState (F : Type) where
  mesh : ObjMesh F
  subMesh : Option Nat
  deriving DecidableEq, Repr

/-- The statement `subMesh.Faces = append(subMesh.Faces, f)`: a nil pointer
dereference panics. -/
def appendFace {F : Type} (st : ObjState F) (f : Face) : Result (ObjState F) :=
  match st.subMesh with
  | none => Result.panic
  | some i =>
    match st.mesh.SubMeshes[i]? with
    | none => Result.panic
    | some sm =>
      Result.ok { st with mesh := { st.mesh with
        SubMeshes := st.mesh.SubMeshes.set i { sm with Faces := sm.Faces ++ [f] } } }

/-- Message of `fmt.Errorf("Unknown obj definition: (%v), %v", line, tokens)`. -/
def unknownDefinition (line : GoString) (tokens : List GoString) : GoString :=
  "Unknown obj definition: (".toList ++ line ++ "), ".toList ++ fmtStrings tokens

/-- The body of the loop of `parseObj`, for one line of the text. -/
def parseObjLine {F : Type} (fl : Float32Ops F) (materials : MaterialMap F)
    (st : ObjState F) (rawLine : GoString) : Result (ObjState F) :=
  let line := TrimSpace rawLine
  if line.length = 0 then Result.ok st
  else
    let tokens := Split line ' '
    if tokens.length = 0 then Result.ok st
    else
      match tokens with
      | [] => Result.panic
      | kw :: args =>
        if kw = "#".toList then Result.ok st
        else if kw = "mtllib".toList then Result.ok st
        else if kw = "usemtl".toList then
          (parseMaterialName args).bind fun materialName =>
            Result.ok
              { mesh := { st.mesh with SubMeshes := st.mesh.SubMeshes ++
                  [⟨materialName, materials.lookup materialName, []⟩] },
                subMesh := some st.mesh.SubMeshes.length }
        else if kw = "o".toList then
          (parseObjectName args).bind fun objectName =>
            Result.ok { st with mesh := { st.mesh with name := objectName } }
        else if kw = "s".toList then Result.ok st
        else if kw = "v".toList then
          (parseVertex fl args).bind fun v =>
            Result.ok { st with mesh := { st.mesh with Verts := st.mesh.Verts ++ [v] } }
        else if kw = "vn".toList then
          (parseVertex fl args).bind fun v =>
            Result.ok { st with mesh := { st.mesh with Normals := st.mesh.Normals ++ [v] } }
        else if kw = "f".toList then
          (parseFace args).bind fun f => appendFace st f
        else Result.error (unknownDefinition line tokens)

/-- The loop `for _, line := range strings.Split(objStr, "\n")` of `parseObj`. -/
def parseObjLines {F : Type} (fl : Float32Ops F) (materials : MaterialMap F) :
    List GoString → ObjState F → Result (ObjState F)
  | [], st => Result.ok st
  | l :: ls, st => (parseObjLine fl materials st l).bind fun st1 =>
      parseObjLines fl materials ls st1

/-- The state of `parseObj` before its loop. -/
def initialState {F : Type} (materials : MaterialMap F) : ObjState F :=
  ⟨⟨[], materials, [], [], []⟩, none⟩

/-- The function `parseObj`. -/
def parseObj {F : Type} (fl : Float32Ops F) (objStr : GoString) (materials : MaterialMap F) :
    Result (ObjMesh F) :=
  (parseObjLines fl materials (Split objStr '\n') (initialState materials)).bind fun st =>
    Result.ok st.mesh

/-! ## Decimal numerals, as the claims read them -/

/-- Value of a string of decimal digits read after the value `n`. -/
def decFrom (n : Nat) (s : GoString) : Nat := s.foldl (fun n c => n * 10 + digitVal c) n

/-- Value of a string of decimal digits, most significant first. -/
def decValue (s : GoString) : Nat := decFrom 0 s

/-- The 32-bit integer written by the digits `ds` under the sign `neg`: at
least one digit, only digits, and a value between `-2^31` and `2^31 - 1`. -/
def signedDecimal32 (neg : Bool) (ds : GoString) : Option Int :=
  if ds ≠ [] ∧ ds.all isDigit = true then
    let z : Int := if neg then -(decValue ds : Int) else (decValue ds : Int)
    if -(2147483648 : Int) ≤ z ∧ z ≤ 2147483647 then some z else none
  else none

/-- A base-10 signed 32-bit integer: an optional sign `+` or `-`, then the
digits; `none` when `s` is not one. -/
def decimalInt32 (s : GoString) : Option Int :=
  match s with
  | [] => none
  | c :: cs =>
    if c = '+' then signedDecimal32 false cs
    else if c = '-' then signedDecimal32 true cs
    else signedDecimal32 false s

/-- Vertex segment of a face token: the text before its first `/`, the whole
token when it has none. -/
def vertexSegment (tok : GoString) : GoString := tok.takeWhile (fun c => c != '/')

/-- What follows the first `/` of a token (empty when there is none). -/
def afterSlash (tok : GoString) : GoString := (tok.dropWhile (fun c => c != '/')).drop 1

/-- Texture segment of a face token: the text between the first and the second
`/`, or all that follows the first `/` when there is no second. -/
def textureSegment (tok : GoString) : GoString := vertexSegment (afterSlash tok)

/-- Normal segment of a face token: all that follows the second `/`. -/
def normalSegment (tok : GoString) : GoString := afterSlash (afterSlash tok)

/-- Shape of a face token: whether it has a texture segment, and whether it has
a normal segment (`v`, `v/t`, `v//n` or `v/t/n`). -/
def tokenShape (tok : GoString) : Bool × Bool :=
  (decide (textureSegment tok ≠ []), decide (normalSegment tok ≠ []))

/-- A token that `parseFace` must reject: its vertex segment is not a base-10
signed 32-bit integer, or its texture segment or its normal segment is present
(not empty) and is not one. -/
def malformedToken (tok : GoString) : Prop :=
  decimalInt32 (vertexSegment tok) = none ∨
  (textureSegment tok ≠ [] ∧ decimalInt32 (textureSegment tok) = none) ∨
  (normalSegment tok ≠ [] ∧ decimalInt32 (normalSegment tok) = none)

instance (tok : GoString) : Decidable (malformedToken tok) := by
  unfold malformedToken
  infer_instance

/-- The array `a` after the assignment `a[i] = x`, for an index in range. -/
def Arr3.update (a : Arr3) (i : Nat) (x : Nat) : Arr3 :=
  match i with
  | 0 => { a with e0 := x }
  | 1 => { a with e1 := x }
  | _ => { a with e2 := x }

/-- What the loop of `parseFace` has stored for the token `tok` at index `k`,
between the states `st` before and `st1` after the loop. -/
def SlotsStored (tok : GoString) (k : Nat) (st st1 : FaceLoop) : Prop :=
  (∃ zv : Int, decimalInt32 (vertexSegment tok) = some zv ∧
    st1.v.get k = sub32 (uint32 zv) 1) ∧
  (textureSegment tok ≠ [] → ∃ zt : Int, decimalInt32 (textureSegment tok) = some zt ∧
    st1.t.get k = sub32 (uint32 zt) 1) ∧
  (textureSegment tok = [] → st1.t.get k = st.t.get k) ∧
  (normalSegment tok ≠ [] → ∃ zn : Int, decimalInt32 (normalSegment tok) = some zn ∧
    st1.n.get k = sub32 (uint32 zn) 1) ∧
  (normalSegment tok = [] → st1.n.get k = st.n.get k)

/-! ## Lines of an OBJ text, as the claims read them -/

/-- The space-separated tokens of a line, once trimmed. -/
def lineTokens (l : GoString) : List GoString := Split (TrimSpace l) ' '

/-- First space-separated token of the trimmed line. -/
def keyword (l : GoString) : GoString := (lineTokens l).headD []

/-- The tokens that follow the keyword. -/
def lineArgs (l : GoString) : List GoString := (lineTokens l).tail

/-- A `usemtl` line. -/
def isUsemtlLine (l : GoString) : Bool := decide (keyword l = "usemtl".toList)

/-- An `f` line. -/
def isFaceLine (l : GoString) : Bool := decide (keyword l = "f".toList)

/-- The name on a `usemtl` line: the token after the keyword. -/
def usemtlName (l : GoString) : GoString := (lineArgs l).headD []

/-- The keywords that `parseObj` recognises. -/
def knownKeywords : List GoString :=
  ["#".toList, "mtllib".toList, "usemtl".toList, "o".toList, "s".toList, "v".toList,
    "vn".toList, "f".toList]

/-- The face that `parseFace` returns for an `f` line. -/
def faceOfLine (l : GoString) : Option Face :=
  if isFaceLine l then
    match parseFace (lineArgs l) with
    | Result.ok f => some f
    | _ => none
  else none

/-- The lines before the first `usemtl` line. -/
def untilUsemtl (ls : List GoString) : List GoString :=
  ls.takeWhile fun l => !isUsemtlLine l

/-- For each `usemtl` line in order, the lines located after it and before the
next `usemtl` line (or the end of the text). -/
def usemtlSections : List GoString → List (List GoString)
  | [] => []
  | l :: ls => if isUsemtlLine l then untilUsemtl ls :: usemtlSections ls else usemtlSections ls

/-- The sub-meshes that a text describes: one per `usemtl` line, with the name
on the line, the material the mapping holds for that name, and the faces of the
`f` lines of its section. -/
def subMeshesOf {F : Type} (materials : MaterialMap F) : List GoString → List (SubMesh F)
  | [] => []
  | l :: ls =>
    if isUsemtlLine l then
      ⟨usemtlName l, materials.lookup (usemtlName l), (untilUsemtl ls).filterMap faceOfLine⟩ ::
        subMeshesOf materials ls
    else subMeshesOf materials ls

/-- The pointer `subMesh` is nil while `mesh.SubMeshes` is empty, and points at
its last entry afterwards. -/
def ObjInv {F : Type} (st : ObjState F) : Prop :=
  (st.mesh.SubMeshes = [] ∧ st.subMesh = none) ∨
  (st.mesh.SubMeshes ≠ [] ∧ st.subMesh = some (st.mesh.SubMeshes.length - 1))

/-- A stand-in for `strconv.ParseFloat`, to run `parseObj` on examples: it accepts
the plain decimal literals, an optional sign, digits, and optionally a point and
digits, and keeps the accepted text as the value. -/
def exampleFloats : Float32Ops GoString where
  zero := ['0']
  parse := fun s =>
    let ds := match s with
      | '-' :: r => r
      | '+' :: r => r
      | r => r
    let ip := ds.takeWhile isDigit
    let rest := ds.dropWhile isDigit
    let ok := match rest with
      | [] => true
      | c :: fp => decide (c = '.') && !fp.isEmpty && fp.all isDigit
    if !ip.isEmpty && ok then some s else none

/-- The cube of the test `TestParseObjCube`. -/
def cubeObj : GoString :=
  ("\n# Blender v2.71 (sub 0) OBJ File: \'\'\n# www.blender.org\nmtllib cube.mtl\no Cube\n" ++
   "v 1.000000 -1.000000 -1.000000\nv 1.000000 -1.000000 1.000000\n" ++
   "v -1.000000 -1.000000 1.000000\nv -1.000000 -1.000000 -1.000000\n" ++
   "v 1.000000 1.000000 -0.999999\nv 0.999999 1.000000 1.000001\n" ++
   "v -1.000000 1.000000 1.000000\nv -1.000000 1.000000 -1.000000\n" ++
   "usemtl Material\ns off\nf 2 3 4\nf 8 7 6\nf 1 5 6\nf 2 6 7\nf 7 8 4\nf 1 4 8\n" ++
   "f 1 2 4\nf 5 8 6\nf 2 1 6\nf 3 2 7\nf 3 7 4\nf 5 1 8").toList

/-- The mesh that the cube text describes. -/
def cubeMesh : ObjMesh GoString where
  name := "Cube".toList
  materials := []
  Verts :=
    [⟨"1.000000".toList, "-1.000000".toList, "-1.000000".toList⟩,
     ⟨"1.000000".toList, "-1.000000".toList, "1.000000".toList⟩,
     ⟨"-1.000000".toList, "-1.000000".toList, "1.000000".toList⟩,
     ⟨"-1.000000".toList, "-1.000000".toList, "-1.000000".toList⟩,
     ⟨"1.000000".toList, "1.000000".toList, "-0.999999".toList⟩,
     ⟨"0.999999".toList, "1.000000".toList, "1.000001".toList⟩,
     ⟨"-1.000000".toList, "1.000000".toList, "1.000000".toList⟩,
     ⟨"-1.000000".toList, "1.000000".toList, "-1.000000".toList⟩]
  Normals := []
  SubMeshes :=
    [⟨"Material".toList, none,
      [newFaceV ⟨1, 2, 3⟩, newFaceV ⟨7, 6, 5⟩, newFaceV ⟨0, 4, 5⟩, newFaceV ⟨1, 5, 6⟩,
       newFaceV ⟨6, 7, 3⟩, newFaceV ⟨0, 3, 7⟩, newFaceV ⟨0, 1, 3⟩, newFaceV ⟨4, 7, 5⟩,
       newFaceV ⟨1, 0, 5⟩, newFaceV ⟨2, 1, 6⟩, newFaceV ⟨2, 6, 3⟩, newFaceV ⟨4, 0, 7⟩]⟩]

/-- A text with two `usemtl` lines, the first followed by one `f` line and the
second by two. -/
def twoSectionsObj : GoString :=
  "usemtl A\nf 1 2 3\n# second\nusemtl B\nf 4/1 5/2 6/3\n\nf 7 8 9".toList

/-- The mesh that the text `twoSectionsObj` describes. -/
def twoSectionsMesh : ObjMesh GoString where
  name := []
  materials := []
  Verts := []
  Normals := []
  SubMeshes :=
    [⟨"A".toList, none, [newFaceV ⟨0, 1, 2⟩]⟩,
     ⟨"B".toList, none, [newFaceVT ⟨3, 4, 5⟩ ⟨0, 1, 2⟩, newFaceV ⟨6, 7, 8⟩]⟩]

/-! ## The material library -/

/-- The loop `for i, _ := range args` of `parseFloat32Array`, from index `i` on,
with the slice `v` built so far. -/
def parseFloat32ArrayLoop {F : Type} (fl : Float32Ops F) :
    List GoString → Nat → List F → Result (List F)
  | [], _, v => Result.ok v
  | a :: rest, i, v =>
    match fl.parse a with
    | none => Result.error ("Couldn't parse element ".toList ++ natNumeral i)
    | some f => parseFloat32ArrayLoop fl rest (i + 1) (v ++ [f])

/-- The function `parseFloat32Array`.  With an error the program also returns
the slice built so far, which its caller does not read. -/
def parseFloat32Array {F : Type} (fl : Float32Ops F) (args : List GoString) :
    Result (List F) :=
  parseFloat32ArrayLoop fl args 0 []

/-- Assignment `c[i] = x` on a `Colour`; `none` is the index-out-of-range panic. -/
def Colour.set {F : Type} (c : Colour F) (i : Nat) (x : F) : Option (Colour F) :=
  match i with
  | 0 => some { c with e0 := x }
  | 1 => some { c with e1 := x }
  | 2 => some { c with e2 := x }
  | 3 => some { c with e3 := x }
  | _ => none

/-- The variables of `parseMaterials` that live across iterations of its loop.
The `Material` values that the program allocates are the entries of `heap`, and
a `*Material` is an index into it: `matlib` is the map from names to pointers,
and `mat` is nil (`none`) or the pointer to the material last allocated. -/
structure MtlState (F : Type) where
  heap : List (Material F)
  matlib : List (GoString × Nat)
  mat : Option Nat
  deriving DecidableEq, Repr

/-- The map assignment `matlib[k] = p`: the entry of `k`, if any, is replaced. -/
def mapStore (m : List (GoString × Nat)) (k : GoString) (p : Nat) : List (GoString × Nat) :=
  m.filter (fun e => decide (e.1 ≠ k)) ++ [(k, p)]

/-- The case `newmtl`: `mat = &Material{}`, `mat.Name = tokens[1]`,
`matlib[mat.Name] = mat`; `tokens[1]` out of range panics. -/
def newMaterial {F : Type} (fl : Float32Ops F) (st : MtlState F) (args : List GoString) :
    Result (MtlState F) :=
  match args with
  | [] => Result.panic
  | name :: _ =>
    Result.ok
      { heap := st.heap ++ [⟨name, ⟨fl.zero, fl.zero, fl.zero, fl.zero⟩⟩],
        matlib := mapStore st.matlib name st.heap.length,
        mat := some st.heap.length }

/-- The statement `mat.Diffuse[k] = values[k]`: a nil `mat` or an index out of
the range of `values` panics. -/
def setDiffuse {F : Type} (st : MtlState F) (k : Nat) (values : List F) :
    Result (MtlState F) :=
  match values[k]?, st.mat with
  | some x, some p =>
    match st.heap[p]? with
    | some m =>
      (orPanic (m.Diffuse.set k x)).bind fun d =>
        Result.ok { st with heap := st.heap.set p { m with Diffuse := d } }
    | none => Result.panic
  | _, _ => Result.panic

/-- The body of the loop of `parseMaterials`, for one line of the text. -/
def parseMaterialsLine {F : Type} (fl : Float32Ops F) (st : MtlState F)
    (rawLine : GoString) : Result (MtlState F) :=
  let line := TrimSpace rawLine
  if line.length = 0 then Result.ok st
  else
    let tokens := Split line ' '
    if tokens.length = 0 then Result.ok st
    else
      match tokens with
      | [] => Result.panic
      | kw :: args =>
        if kw = "#".toList then Result.ok st
        else if kw = "newmtl".toList then newMaterial fl st args
        else if kw = "Kd".toList then
          (parseFloat32Array fl args).bind fun values =>
            (setDiffuse st 0 values).bind fun st0 =>
              (setDiffuse st0 1 values).bind fun st1 =>
                setDiffuse st1 2 values
        else Result.ok st

/-- The loop `for _, line := range strings.Split(str, "\n")` of `parseMaterials`. -/
def parseMaterialsLines {F : Type} (fl : Float32Ops F) :
    List GoString → MtlState F → Result (MtlState F)
  | [], st => Result.ok st
  | l :: ls, st => (parseMaterialsLine fl st l).bind fun st1 => parseMaterialsLines fl ls st1

/-- The map that `parseMaterials` returns, each pointer followed to the material
it points at. -/
def resolveMaterials {F : Type} (st : MtlState F) : MaterialMap F :=
  st.matlib.filterMap fun e => (st.heap[e.2]?).map fun m => (e.1, m)

/-- The state of `parseMaterials` before its loop. -/
def initialMtlState {F : Type} : MtlState F := ⟨[], [], none⟩

/-- The function `parseMaterials`. -/
def parseMaterials {F : Type} (fl : Float32Ops F) (str : GoString) : Result (MaterialMap F) :=
  (parseMaterialsLines fl (Split str '\n') initialMtlState).bind fun st =>
    Result.ok (resolveMaterials st)

/-- The two values that `parseMaterialName` returns, the string and the error
(`none` is a nil error). -/
def parseMaterialNameGo (args : List GoString) : GoString × Option GoString :=
  if args.length ≠ 1 then ([], some "Expected only one argument".toList)
  else (args.headD [], none)

/-- The two values that `parseObjectName` returns, the string and the error
(`none` is a nil error). -/
def parseObjectNameGo (args : List GoString) : GoString × Option GoString :=
  if args.length ≠ 1 then ([], some "Expected only one argument".toList)
  else (args.headD [], none)

/-- A call returning `(string, error)`, read the way the callers of this
program do: the error if it is not nil, the value otherwise. -/
def Result.ofPair (r : GoString × Option GoString) : Result GoString :=
  match r.2 with
  | some e => Result.error e
  | none => Result.ok r.1

/-! ## More of the lines of a text, as the claims read them -/

/-- A `v` line. -/
def isVertexLine (l : GoString) : Bool := decide (keyword l = "v".toList)

/-- A `vn` line. -/
def isNormalLine (l : GoString) : Bool := decide (keyword l = "vn".toList)

/-- The vertex that `parseVertex` returns for the arguments of a line. -/
def vertexOfLine {F : Type} (fl : Float32Ops F) (l : GoString) : Option (Vertex F) :=
  match parseVertex fl (lineArgs l) with
  | Result.ok v => some v
  | _ => none

/-- A token: not empty, and without white space. -/
def isToken (s : GoString) : Prop := s ≠ [] ∧ ∀ c ∈ s, isSpace c = false

/-- The Wavefront material library of the test `TestParseObjMaterial`. -/
def cubeMtl : GoString :=
  ("\n# Blender MTL File: \'None\'\n# Material Count: 1\n\nnewmtl Material\n" ++
   "Ns 96.078431\nKa 0.000000 0.000000 0.000000\nKd 0.640000 0.640000 0.640000\n" ++
   "Ks 0.500000 0.500000 0.500000\nNi 1.000000\nd 1.000000\nillum 2").toList

/-! ## Outcomes under two mappings -/

/-- Two outcomes of the loop of `parseObj` of the same kind: two states with the
same pointer `subMesh` and as many sub-meshes, the same error, or two panics. -/
def SameOutcome {F : Type} (r r1 : Result (ObjState F)) : Prop :=
  match r, r1 with
  | Result.ok a, Result.ok b =>
    a.subMesh = b.subMesh ∧ a.mesh.SubMeshes.length = b.mesh.SubMeshes.length
  | Result.error e, Result.error e1 => e = e1
  | Result.panic, Result.panic => True
  | _, _ => False

/-- A mapping with the single material `Mat`. -/
def oneMaterial : MaterialMap GoString :=
  [("Mat".toList, ⟨"Mat".toList, ⟨"1".toList, "0".toList, "0".toList, "0".toList⟩⟩)]

/-- A text that uses the name `Nope`, which `oneMaterial` does not declare, then
the name `Mat`, which it declares. -/
def twoNamesObj : GoString := "usemtl Nope\nusemtl Mat".toList

/-- The mesh that the text `twoNamesObj` describes under `oneMaterial`. -/
def twoNamesMesh : ObjMesh GoString where
  name := []
  materials := oneMaterial
  Verts := []
  Normals := []
  SubMeshes :=
    [⟨"Nope".toList, none, []⟩,
     ⟨"Mat".toList,
      some ⟨"Mat".toList, ⟨"1".toList, "0".toList, "0".toList, "0".toList⟩⟩, []⟩]

/-! # Theorems -/

/-! ## Decimal digits and `strconv.ParseInt` -/

theorem decValue_eq_decFrom (s : GoString) : decValue s = decFrom 0 s := rfl

theorem decFrom_cons (n : Nat) (c : Char) (cs : GoString) :
    decFrom n (c :: cs) = decFrom (n * 10 + digitVal c) cs := rfl

theorem decFrom_append (n : Nat) (s t : GoString) :
    decFrom n (s ++ t) = decFrom (decFrom n s) t := by
  simp [decFrom, List.foldl_append]

theorem le_decFrom (s : GoString) : ∀ n : Nat, n ≤ decFrom n s := by
  induction s with
  | nil => intro n; exact Nat.le_refl n
  | cons c cs ih =>
    intro n
    have h := ih (n * 10 + digitVal c)
    rw [decFrom_cons]
    omega

theorem digitVal_le_of_isDigit {c : Char} (h : isDigit c = true) : digitVal c ≤ 9 := by
  simp only [isDigit, Bool.and_eq_true, decide_eq_true_eq] at h
  have h9 : '9'.toNat = 57 := by decide
  have h0 : '0'.toNat = 48 := by decide
  simp only [digitVal]
  omega

theorem digitChar_facts (d : Nat) (h : d < 10) :
    isDigit (digitChar d) = true ∧ digitVal (digitChar d) = d := by
  interval_cases d <;> decide

theorem isDigit_ne {c : Char} (h : isDigit c = true) : c ≠ '/' ∧ c ≠ '+' ∧ c ≠ '-' := by
  refine ⟨?_, ?_, ?_⟩ <;> (rintro rfl; revert h; decide)

theorem parseUintLoop_sound (M : Nat) (hM : M ≤ 4294967295) (s : GoString) :
    ∀ n : Nat, n ≤ M → (parseUintLoop M s n).2 = none →
      s.all isDigit = true ∧ decFrom n s ≤ M ∧ (parseUintLoop M s n).1 = decFrom n s := by
  induction s with
  | nil => intro n hn _; simp [parseUintLoop, decFrom, hn]
  | cons c cs ih =>
    intro n hn h
    rw [parseUintLoop] at h ⊢
    by_cases hc : isDigit c = true
    · have hd := digitVal_le_of_isDigit hc
      have hcut : ¬ cutoff64 ≤ n := by
        have : cutoff64 = 1844674407370955162 := by decide
        omega
      have e10 : n * 10 % 2 ^ 64 = n * 10 := Nat.mod_eq_of_lt (by norm_num; omega)
      have e1 : (n * 10 + digitVal c) % 2 ^ 64 = n * 10 + digitVal c :=
        Nat.mod_eq_of_lt (by norm_num; omega)
      simp only [hc, if_true, hcut, if_false, e10, e1] at h ⊢
      by_cases hr : M < n * 10 + digitVal c
      · simp [hr] at h
      · have hlt : ¬ (n * 10 + digitVal c < n * 10) := by omega
        simp only [hr, hlt, or_self, if_false] at h ⊢
        have := ih (n * 10 + digitVal c) (by omega) h
        simp only [List.all_cons, hc, Bool.true_and, decFrom_cons]
        exact this
    · simp [hc] at h

theorem parseUintLoop_complete (M : Nat) (hM : M ≤ 4294967295) (s : GoString) :
    ∀ n : Nat, s.all isDigit = true → decFrom n s ≤ M →
      parseUintLoop M s n = (decFrom n s, none) := by
  induction s with
  | nil => intro n _ _; simp [parseUintLoop, decFrom]
  | cons c cs ih =>
    intro n hall hle
    simp only [List.all_cons, Bool.and_eq_true] at hall
    obtain ⟨hc, hcs⟩ := hall
    rw [decFrom_cons] at hle ⊢
    have hd := digitVal_le_of_isDigit hc
    have hge := le_decFrom cs (n * 10 + digitVal c)
    have hcut : ¬ cutoff64 ≤ n := by
      have : cutoff64 = 1844674407370955162 := by decide
      omega
    have e10 : n * 10 % 2 ^ 64 = n * 10 := Nat.mod_eq_of_lt (by norm_num; omega)
    have e1 : (n * 10 + digitVal c) % 2 ^ 64 = n * 10 + digitVal c :=
      Nat.mod_eq_of_lt (by norm_num; omega)
    have hr : ¬ (n * 10 + digitVal c < n * 10 ∨ M < n * 10 + digitVal c) := by omega
    rw [parseUintLoop]
    simp only [hc, if_true, hcut, if_false, e10, e1, hr]
    exact ih _ hcs hle

theorem parseUintLoop_range (M : Nat) (s : GoString) :
    ∀ n : Nat, (parseUintLoop M s n).2 = some NumError.ErrRange →
      (parseUintLoop M s n).1 = M := by
  induction s with
  | nil => intro n h; simp [parseUintLoop] at h
  | cons c cs ih =>
    intro n h
    rw [parseUintLoop] at h ⊢
    by_cases hc : isDigit c = true
    · by_cases hcut : cutoff64 ≤ n
      · simp [hc, hcut]
      · by_cases hr : (n * 10 % 2 ^ 64 + digitVal c) % 2 ^ 64 < n * 10 % 2 ^ 64 ∨
            M < (n * 10 % 2 ^ 64 + digitVal c) % 2 ^ 64
        · simp only [hc, hcut, hr, if_true, if_false]
        · simp only [hc, hcut, hr, if_true, if_false] at h ⊢
          exact ih _ h
    · simp [hc] at h

theorem ParseUint_spec (ds : GoString) :
    (ds ≠ [] ∧ ds.all isDigit = true ∧ decValue ds ≤ 4294967295 ∧
        ParseUint ds 32 = (decValue ds, none)) ∨
    (¬ (ds ≠ [] ∧ ds.all isDigit = true ∧ decValue ds ≤ 4294967295) ∧
      ((ParseUint ds 32).2 = some NumError.ErrSyntax ∨
        ((ParseUint ds 32).2 = some NumError.ErrRange ∧ (ParseUint ds 32).1 = 4294967295))) := by
  cases ds with
  | nil => right; simp [ParseUint]
  | cons c cs =>
    have hM : (2 ^ 32 - 1 : Nat) = 4294967295 := by norm_num
    simp only [ParseUint, hM]
    have hs := parseUintLoop_sound 4294967295 (le_refl _) (c :: cs) 0 (by omega)
    have hc := parseUintLoop_complete 4294967295 (le_refl _) (c :: cs) 0
    have hr := parseUintLoop_range 4294967295 (c :: cs) 0
    rw [decValue_eq_decFrom]
    cases h2 : (parseUintLoop 4294967295 (c :: cs) 0).2 with
    | none =>
      left
      obtain ⟨h1, h3, h4⟩ := hs h2
      refine ⟨by simp, h1, h3, ?_⟩
      rw [← h4, ← h2]
    | some e =>
      right
      refine ⟨?_, ?_⟩
      · rintro ⟨_, h1, h3⟩
        rw [hc h1 h3] at h2
        simp at h2
      · cases e with
        | ErrSyntax => left; rfl
        | ErrRange => right; exact ⟨rfl, hr h2⟩

theorem checkRange_spec (neg : Bool) (ds : GoString) :
    (∃ z, signedDecimal32 neg ds = some z ∧ checkRange neg (ParseUint ds 32) 32 = (z, none)) ∨
    (signedDecimal32 neg ds = none ∧ (checkRange neg (ParseUint ds 32) 32).2 ≠ none) := by
  have hcut : (2 : Nat) ^ (32 - 1) = 2147483648 := by norm_num
  rcases ParseUint_spec ds with ⟨h1, h2, h3, h4⟩ | ⟨h1, h2⟩
  · simp only [checkRange, signedDecimal32, h4, hcut]
    simp only [h1, h2, ne_eq, not_false_eq_true, and_self, if_true]
    cases neg with
    | false =>
      by_cases hv : 2147483648 ≤ decValue ds
      · right
        have : ¬ ((decValue ds : Int) ≤ 2147483647) := by omega
        simp [hv, this]
      · left
        refine ⟨(decValue ds : Int), ?_, ?_⟩
        · have : (decValue ds : Int) ≤ 2147483647 := by omega
          have h0 : -(2147483648 : Int) ≤ (decValue ds : Int) := by omega
          simp [this, h0]
        · simp [hv]
    | true =>
      by_cases hv : 2147483648 < decValue ds
      · right
        have : ¬ (-(2147483648 : Int) ≤ -(decValue ds : Int)) := by omega
        simp [hv, this]
      · left
        refine ⟨-(decValue ds : Int), ?_, ?_⟩
        · have : -(decValue ds : Int) ≤ 2147483647 := by omega
          have h0 : -(2147483648 : Int) ≤ -(decValue ds : Int) := by omega
          simp [this, h0]
        · simp [hv]
  · right
    refine ⟨?_, ?_⟩
    · simp only [signedDecimal32]
      by_cases hd : ds ≠ [] ∧ ds.all isDigit = true
      · have hbig : ¬ decValue ds ≤ 4294967295 := fun h => h1 ⟨hd.1, hd.2, h⟩
        rw [if_pos hd]
        cases neg with
        | false =>
          have : ¬ ((decValue ds : Int) ≤ 2147483647) := by omega
          simp [this]
        | true =>
          have : ¬ (-(2147483648 : Int) ≤ -(decValue ds : Int)) := by omega
          simp [this]
      · rw [if_neg hd]
    · rcases h2 with h2 | ⟨h2, h3⟩
      · simp [checkRange, h2]
      · simp only [checkRange, h2, h3, hcut]
        cases neg <;> simp

theorem ParseInt_spec (s : GoString) :
    (∃ z, decimalInt32 s = some z ∧ ParseInt s 32 = (z, none)) ∨
    (decimalInt32 s = none ∧ (ParseInt s 32).2 ≠ none) := by
  cases s with
  | nil => right; simp [decimalInt32, ParseInt]
  | cons c cs =>
    simp only [ParseInt, decimalInt32]
    by_cases hp : c = '+'
    · simp only [hp, if_true]
      exact checkRange_spec false cs
    · by_cases hm : c = '-'
      · simp only [hp, hm, if_true, if_false]
        exact checkRange_spec true cs
      · simp only [hp, hm, if_false]
        exact checkRange_spec false (c :: cs)

/-- `ParseInt` returns a nil error exactly on the base-10 signed 32-bit
integers, with their value. -/
theorem ParseInt_eq_iff (s : GoString) (z : Int) :
    ParseInt s 32 = (z, none) ↔ decimalInt32 s = some z := by
  rcases ParseInt_spec s with ⟨w, h1, h2⟩ | ⟨h1, h2⟩
  · rw [h1, h2]
    simp
  · rw [h1]
    constructor
    · intro h; rw [h] at h2; simp at h2
    · intro h; simp at h

theorem ParseInt_err_iff (s : GoString) :
    (ParseInt s 32).2 ≠ none ↔ decimalInt32 s = none := by
  rcases ParseInt_spec s with ⟨w, h1, h2⟩ | ⟨h1, h2⟩
  · rw [h1, h2]; simp
  · rw [h1]; simp [h2]

/-! ## Numerals -/

theorem numeralAux_append (fuel : Nat) :
    ∀ (n : Nat) (acc : GoString), numeralAux fuel n acc = numeralAux fuel n [] ++ acc := by
  induction fuel with
  | zero => intro n acc; rfl
  | succ f ih =>
    intro n acc
    simp only [numeralAux]
    by_cases h : n < 10
    · simp [h]
    · simp only [h, if_false]
      rw [ih (n / 10) (digitChar (n % 10) :: acc), ih (n / 10) [digitChar (n % 10)]]
      simp

theorem numeralAux_spec (fuel : Nat) :
    ∀ n : Nat, n < fuel →
      (numeralAux fuel n []).all isDigit = true ∧ decValue (numeralAux fuel n []) = n ∧
        numeralAux fuel n [] ≠ [] := by
  induction fuel with
  | zero => intro n h; omega
  | succ f ih =>
    intro n hn
    simp only [numeralAux]
    by_cases h : n < 10
    · have hd := digitChar_facts n h
      simp only [h, if_true]
      refine ⟨by simp [hd.1], ?_, by simp⟩
      simp [decValue, decFrom, hd.2]
    · simp only [h, if_false]
      rw [numeralAux_append]
      obtain ⟨h1, h2, _⟩ := ih (n / 10) (by omega)
      have hd := digitChar_facts (n % 10) (Nat.mod_lt _ (by norm_num))
      refine ⟨?_, ?_, by simp⟩
      · rw [List.all_append, h1]
        simp [hd.1]
      · rw [decValue_eq_decFrom, decFrom_append, ← decValue_eq_decFrom, h2]
        simp only [decFrom, List.foldl_cons, List.foldl_nil, hd.2]
        omega

theorem natNumeral_spec (n : Nat) :
    (natNumeral n).all isDigit = true ∧ decValue (natNumeral n) = n ∧ natNumeral n ≠ [] :=
  numeralAux_spec (n + 1) n (Nat.lt_succ_self n)

theorem decimalInt32_of_digits (s : GoString) (h1 : s.all isDigit = true) (h2 : s ≠ [])
    (h3 : decValue s ≤ 2147483647) : decimalInt32 s = some (decValue s : Int) := by
  cases s with
  | nil => exact absurd rfl h2
  | cons c cs =>
    have hc : isDigit c = true := by
      simp only [List.all_cons, Bool.and_eq_true] at h1
      exact h1.1
    obtain ⟨_, hp, hm⟩ := isDigit_ne hc
    simp only [decimalInt32, hp, hm, if_false, signedDecimal32]
    rw [if_pos ⟨h2, h1⟩]
    have a1 : -(2147483648 : Int) ≤ (decValue (c :: cs) : Int) := by omega
    have a2 : (decValue (c :: cs) : Int) ≤ 2147483647 := by omega
    simp [a1, a2]

theorem ParseInt_natNumeral (a : Nat) (h : a ≤ 2147483647) :
    ParseInt (natNumeral a) 32 = ((a : Int), none) := by
  obtain ⟨h1, h2, h3⟩ := natNumeral_spec a
  rw [ParseInt_eq_iff, decimalInt32_of_digits _ h1 h3 (by omega), h2]

theorem slash_not_mem_of_digits (s : GoString) (h : s.all isDigit = true) : '/' ∉ s := by
  intro hm
  rw [List.all_eq_true] at h
  exact (isDigit_ne (h _ hm)).1 rfl

/-! ## Cutting a token at its slashes -/

theorem Index_of_not_mem (c : Char) (s : GoString) (h : c ∉ s) : Index s c = -1 := by
  induction s with
  | nil => rfl
  | cons x xs ih =>
    simp only [List.mem_cons, not_or] at h
    have hx : ¬ x = c := fun e => h.1 e.symm
    rw [Index, if_neg hx, ih h.2]
    rfl

theorem Index_append_cons (c : Char) (a b : GoString) (h : c ∉ a) :
    Index (a ++ c :: b) c = (a.length : Int) := by
  induction a with
  | nil => simp [Index]
  | cons x xs ih =>
    simp only [List.mem_cons, not_or] at h
    have hx : ¬ x = c := fun e => h.1 e.symm
    have e := ih h.2
    have hne : ¬ ((xs.length : Int) = -1) := by omega
    rw [List.cons_append, Index, if_neg hx, e, if_neg hne, List.length_cons]
    push_cast
    rfl

theorem slice_mid (a m b : GoString) (lo hi : Int) (hlo : lo = (a.length : Int))
    (hhi : hi = (a.length : Int) + (m.length : Int)) :
    slice (a ++ (m ++ b)) lo hi = some m := by
  have e1 : lo.toNat = a.length := by omega
  have e2 : hi.toNat - a.length = m.length := by omega
  have hb : 0 ≤ lo ∧ lo ≤ hi ∧ hi ≤ ((a ++ (m ++ b)).length : Int) := by
    simp only [List.length_append]
    push_cast
    omega
  rw [slice, if_pos hb, e1, e2]
  simp

theorem sliceFrom_append (a b : GoString) (lo : Int) (hlo : lo = (a.length : Int)) :
    sliceFrom (a ++ b) lo = some b := by
  have := slice_mid a b [] lo ((a ++ b).length : Int) hlo (by simp)
  simpa [sliceFrom] using this

theorem sliceTo_append (a b : GoString) (hi : Int) (hhi : hi = (a.length : Int)) :
    sliceTo (a ++ b) hi = some a := by
  have := slice_mid [] a b 0 hi (by simp) (by simp [hhi])
  simpa [sliceTo] using this

theorem vertexSegment_of_not_mem (s : GoString) (h : '/' ∉ s) : vertexSegment s = s := by
  simp only [vertexSegment, List.takeWhile_eq_self_iff]
  intro x hx
  simp only [bne_iff_ne, ne_eq]
  rintro rfl
  exact h hx

theorem afterSlash_of_not_mem (s : GoString) (h : '/' ∉ s) : afterSlash s = [] := by
  have : s.dropWhile (fun c => c != '/') = [] := by
    rw [List.dropWhile_eq_nil_iff]
    intro x hx
    simp only [bne_iff_ne, ne_eq]
    rintro rfl
    exact h hx
  simp [afterSlash, this]

theorem vertexSegment_append (a b : GoString) (h : '/' ∉ a) :
    vertexSegment (a ++ '/' :: b) = a := by
  induction a with
  | nil => simp [vertexSegment]
  | cons x xs ih =>
    simp only [List.mem_cons, not_or] at h
    have hx : (x != '/') = true := by simp only [bne_iff_ne, ne_eq]; exact fun e => h.1 e.symm
    have := ih h.2
    simp only [vertexSegment] at this ⊢
    simp [List.takeWhile_cons, hx, this]

theorem afterSlash_append (a b : GoString) (h : '/' ∉ a) :
    afterSlash (a ++ '/' :: b) = b := by
  induction a with
  | nil => simp [afterSlash]
  | cons x xs ih =>
    simp only [List.mem_cons, not_or] at h
    have hx : (x != '/') = true := by simp only [bne_iff_ne, ne_eq]; exact fun e => h.1 e.symm
    have := ih h.2
    simp only [afterSlash] at this ⊢
    simp [List.dropWhile_cons, hx, this]

/-- A token with a `/` is its vertex segment, the `/`, and what follows. -/
theorem token_split (s : GoString) (h : '/' ∈ s) :
    s = vertexSegment s ++ '/' :: afterSlash s ∧ '/' ∉ vertexSegment s := by
  induction s with
  | nil => simp at h
  | cons x xs ih =>
    by_cases hx : x = '/'
    · subst hx
      simp [vertexSegment, afterSlash]
    · have hm : '/' ∈ xs := by
        rcases List.mem_cons.1 h with e | e
        · exact absurd e.symm hx
        · exact e
      have hb : (x != '/') = true := by simp only [bne_iff_ne, ne_eq]; exact hx
      obtain ⟨h1, h2⟩ := ih hm
      simp only [vertexSegment, afterSlash] at h1 h2 ⊢
      simp only [List.takeWhile_cons, List.dropWhile_cons, hb, if_true, List.cons_append,
        List.mem_cons, not_or]
      exact ⟨by rw [← h1], fun e => hx e.symm, h2⟩

/-- The slices taken by `parseFace` are in range, and they are the three
segments of the token. -/
theorem faceSegments_eq (str : GoString) :
    faceSegments str = some (vertexSegment str, textureSegment str, normalSegment str) := by
  by_cases h : '/' ∈ str
  · obtain ⟨h1, h2⟩ := token_split str h
    generalize vertexSegment str = a at h1 h2
    generalize hb : afterSlash str = b at h1
    have hts : textureSegment str = vertexSegment b := by rw [textureSegment, hb]
    have hns : normalSegment str = afterSlash b := by rw [normalSegment, hb]
    rw [hts, hns]
    clear hts hns hb h
    subst h1
    have hi : Index (a ++ '/' :: b) '/' = (a.length : Int) := Index_append_cons '/' a b h2
    have hne : (a.length : Int) ≠ -1 := by omega
    have hrest : sliceFrom (a ++ '/' :: b) ((a.length : Int) + 1) = some b := by
      have := sliceFrom_append (a ++ ['/']) b ((a.length : Int) + 1) (by simp)
      simpa using this
    have hv : sliceTo (a ++ '/' :: b) (a.length : Int) = some a := sliceTo_append a _ _ rfl
    simp only [faceSegments, hi, hne, ne_eq, not_false_eq_true, if_true, hrest, hv]
    by_cases h3 : '/' ∈ b
    · obtain ⟨h4, h5⟩ := token_split b h3
      generalize vertexSegment b = t at h4 h5
      generalize afterSlash b = n at h4
      subst h4
      have hi2 : Index (t ++ '/' :: n) '/' = (t.length : Int) := Index_append_cons '/' t n h5
      have hne2 : (t.length : Int) ≠ -1 := by omega
      have hne3 : ¬ ((t.length : Int) + ((a.length : Int) + 1) = -1) := by omega
      simp only [hi2, hne2, ne_eq, not_false_eq_true, if_true, hne3, if_false]
      have ht : slice (a ++ '/' :: (t ++ '/' :: n)) ((a.length : Int) + 1)
          ((t.length : Int) + ((a.length : Int) + 1)) = some t := by
        have := slice_mid (a ++ ['/']) t ('/' :: n) ((a.length : Int) + 1)
          ((t.length : Int) + ((a.length : Int) + 1)) (by simp) (by simp; omega)
        simpa using this
      have hn : sliceFrom (a ++ '/' :: (t ++ '/' :: n))
          ((t.length : Int) + ((a.length : Int) + 1) + 1) = some n := by
        have := sliceFrom_append (a ++ '/' :: (t ++ ['/'])) n
          ((t.length : Int) + ((a.length : Int) + 1) + 1) (by simp; omega)
        simpa using this
      simp only [ht, hn]
    · have hi2 : Index b '/' = -1 := Index_of_not_mem '/' b h3
      simp only [hi2, ne_eq, not_true_eq_false, if_false, if_true]
      rw [vertexSegment_of_not_mem b h3, afterSlash_of_not_mem b h3]
  · have hi : Index str '/' = -1 := Index_of_not_mem '/' str h
    simp only [faceSegments, hi, ne_eq, not_true_eq_false, if_false]
    rw [textureSegment, normalSegment, vertexSegment_of_not_mem str h, afterSlash_of_not_mem str h]
    rfl

/-! ## Faces of uniform shape -/

theorem sub32_uint32_of_pos (a : Nat) (h1 : 1 ≤ a) (h2 : a ≤ 2147483647) :
    sub32 (uint32 (a : Int)) 1 = a - 1 := by
  have e : uint32 (a : Int) = a := by
    simp only [uint32]
    omega
  rw [e]
  simp only [sub32]
  omega

theorem storeIndex_natNumeral (what : GoString) (args : List GoString) (i a : Nat) (arr : Arr3)
    (h1 : 1 ≤ a) (h2 : a ≤ 2147483647) :
    storeIndex what args i (natNumeral a) arr = orPanic (arr.set i (a - 1)) := by
  simp [storeIndex, ParseInt_natNumeral a h2, sub32_uint32_of_pos a h1 h2]

theorem slash_not_mem_natNumeral (a : Nat) : '/' ∉ natNumeral a :=
  slash_not_mem_of_digits _ (natNumeral_spec a).1

theorem natNumeral_length_pos (a : Nat) : 0 < (natNumeral a).length :=
  List.length_pos.2 (natNumeral_spec a).2.2

theorem segments_v (a : Nat) :
    faceSegments (natNumeral a) = some (natNumeral a, [], []) := by
  have h := slash_not_mem_natNumeral a
  rw [faceSegments_eq, textureSegment, normalSegment, vertexSegment_of_not_mem _ h,
    afterSlash_of_not_mem _ h]
  rfl

theorem segments_vt (a b : Nat) :
    faceSegments (natNumeral a ++ '/' :: natNumeral b) =
      some (natNumeral a, natNumeral b, []) := by
  have ha := slash_not_mem_natNumeral a
  have hb := slash_not_mem_natNumeral b
  rw [faceSegments_eq, textureSegment, normalSegment, vertexSegment_append _ _ ha,
    afterSlash_append _ _ ha, vertexSegment_of_not_mem _ hb, afterSlash_of_not_mem _ hb]

theorem segments_vtn (a b c : Nat) :
    faceSegments (natNumeral a ++ '/' :: (natNumeral b ++ '/' :: natNumeral c)) =
      some (natNumeral a, natNumeral b, natNumeral c) := by
  have ha := slash_not_mem_natNumeral a
  have hb := slash_not_mem_natNumeral b
  rw [faceSegments_eq, textureSegment, normalSegment, vertexSegment_append _ _ ha,
    afterSlash_append _ _ ha, vertexSegment_append _ _ hb, afterSlash_append _ _ hb]

theorem segments_vn (a c : Nat) :
    faceSegments (natNumeral a ++ '/' :: '/' :: natNumeral c) =
      some (natNumeral a, [], natNumeral c) := by
  have ha := slash_not_mem_natNumeral a
  have e : natNumeral a ++ '/' :: '/' :: natNumeral c =
      natNumeral a ++ '/' :: ([] ++ '/' :: natNumeral c) := by simp
  rw [e, faceSegments_eq, textureSegment, normalSegment, vertexSegment_append _ _ ha,
    afterSlash_append _ _ ha, vertexSegment_append _ _ (List.not_mem_nil _),
    afterSlash_append _ _ (List.not_mem_nil _)]

/-- C1: for all `a`, `b`, `c` between `1` and `2^31 - 1`, `parseFace` applied to
the three decimal numerals of `a`, `b` and `c` succeeds and returns the
vertex-only face with `v = (a-1, b-1, c-1)`, `t = (0,0,0)` and `n = (0,0,0)`. -/
theorem parseFace_vertex_only (a b c : Nat)
    (ha : 1 ≤ a ∧ a ≤ 2147483647) (hb : 1 ≤ b ∧ b ≤ 2147483647)
    (hc : 1 ≤ c ∧ c ≤ 2147483647) :
    parseFace [natNumeral a, natNumeral b, natNumeral c] =
      Result.ok { v := ⟨a - 1, b - 1, c - 1⟩, t := ⟨0, 0, 0⟩, n := ⟨0, 0, 0⟩ } := by
  simp [parseFace, parseFaceLoop, parseFaceStep, segments_v, orPanic, Result.bind,
    storeIndex_natNumeral _ _ _ _ _ ha.1 ha.2, storeIndex_natNumeral _ _ _ _ _ hb.1 hb.2,
    storeIndex_natNumeral _ _ _ _ _ hc.1 hc.2, Arr3.set, Arr3.zero, newFaceV]

/-- The tokens of `2 3 4` give the vertex-only face with `v = (1,2,3)`. -/
theorem parseFace_vertex_only_witness :
    Split "2 3 4".toList ' ' = [natNumeral 2, natNumeral 3, natNumeral 4] ∧
    parseFace [natNumeral 2, natNumeral 3, natNumeral 4] =
      Result.ok { v := ⟨1, 2, 3⟩, t := ⟨0, 0, 0⟩, n := ⟨0, 0, 0⟩ } :=
  ⟨by decide, parseFace_vertex_only 2 3 4 (by decide) (by decide) (by decide)⟩

/-- C2: for all `a1, a2, a3, b1, b2, b3` between `1` and `2^31 - 1`, `parseFace`
applied to the three tokens `ai/bi` succeeds and returns the vertex/texture
face with `v = (a1-1, a2-1, a3-1)`, `t = (b1-1, b2-1, b3-1)` and `n = (0,0,0)`. -/
theorem parseFace_vertex_texture (a1 a2 a3 b1 b2 b3 : Nat)
    (ha1 : 1 ≤ a1 ∧ a1 ≤ 2147483647) (ha2 : 1 ≤ a2 ∧ a2 ≤ 2147483647)
    (ha3 : 1 ≤ a3 ∧ a3 ≤ 2147483647) (hb1 : 1 ≤ b1 ∧ b1 ≤ 2147483647)
    (hb2 : 1 ≤ b2 ∧ b2 ≤ 2147483647) (hb3 : 1 ≤ b3 ∧ b3 ≤ 2147483647) :
    parseFace [natNumeral a1 ++ ['/'] ++ natNumeral b1, natNumeral a2 ++ ['/'] ++ natNumeral b2,
        natNumeral a3 ++ ['/'] ++ natNumeral b3] =
      Result.ok { v := ⟨a1 - 1, a2 - 1, a3 - 1⟩, t := ⟨b1 - 1, b2 - 1, b3 - 1⟩,
                  n := ⟨0, 0, 0⟩ } := by
  have l1 := natNumeral_length_pos b1
  have l2 := natNumeral_length_pos b2
  have l3 := natNumeral_length_pos b3
  simp [parseFace, parseFaceLoop, parseFaceStep, segments_vt, orPanic, Result.bind,
    storeIndex_natNumeral _ _ _ _ _ ha1.1 ha1.2, storeIndex_natNumeral _ _ _ _ _ ha2.1 ha2.2,
    storeIndex_natNumeral _ _ _ _ _ ha3.1 ha3.2, storeIndex_natNumeral _ _ _ _ _ hb1.1 hb1.2,
    storeIndex_natNumeral _ _ _ _ _ hb2.1 hb2.2, storeIndex_natNumeral _ _ _ _ _ hb3.1 hb3.2,
    Arr3.set, Arr3.zero, newFaceVT, l1, l2, l3]

/-- The tokens of `2/3 4/5 6/7` give `v = (1,3,5)`, `t = (2,4,6)`. -/
theorem parseFace_vertex_texture_witness :
    Split "2/3 4/5 6/7".toList ' ' =
      [natNumeral 2 ++ ['/'] ++ natNumeral 3, natNumeral 4 ++ ['/'] ++ natNumeral 5,
        natNumeral 6 ++ ['/'] ++ natNumeral 7] ∧
    parseFace [natNumeral 2 ++ ['/'] ++ natNumeral 3, natNumeral 4 ++ ['/'] ++ natNumeral 5,
        natNumeral 6 ++ ['/'] ++ natNumeral 7] =
      Result.ok { v := ⟨1, 3, 5⟩, t := ⟨2, 4, 6⟩, n := ⟨0, 0, 0⟩ } :=
  ⟨by decide, parseFace_vertex_texture 2 4 6 3 5 7 (by decide) (by decide) (by decide)
    (by decide) (by decide) (by decide)⟩

/-- C3: for all `ai, bi, ci` between `1` and `2^31 - 1`, `parseFace` applied to
the three tokens `ai/bi/ci` succeeds and returns the vertex/texture/normal face
with `v = (a1-1, a2-1, a3-1)`, `t = (b1-1, b2-1, b3-1)`, `n = (c1-1, c2-1, c3-1)`. -/
theorem parseFace_vertex_texture_normal (a1 a2 a3 b1 b2 b3 c1 c2 c3 : Nat)
    (ha1 : 1 ≤ a1 ∧ a1 ≤ 2147483647) (ha2 : 1 ≤ a2 ∧ a2 ≤ 2147483647)
    (ha3 : 1 ≤ a3 ∧ a3 ≤ 2147483647) (hb1 : 1 ≤ b1 ∧ b1 ≤ 2147483647)
    (hb2 : 1 ≤ b2 ∧ b2 ≤ 2147483647) (hb3 : 1 ≤ b3 ∧ b3 ≤ 2147483647)
    (hc1 : 1 ≤ c1 ∧ c1 ≤ 2147483647) (hc2 : 1 ≤ c2 ∧ c2 ≤ 2147483647)
    (hc3 : 1 ≤ c3 ∧ c3 ≤ 2147483647) :
    parseFace [natNumeral a1 ++ ['/'] ++ natNumeral b1 ++ ['/'] ++ natNumeral c1,
        natNumeral a2 ++ ['/'] ++ natNumeral b2 ++ ['/'] ++ natNumeral c2,
        natNumeral a3 ++ ['/'] ++ natNumeral b3 ++ ['/'] ++ natNumeral c3] =
      Result.ok { v := ⟨a1 - 1, a2 - 1, a3 - 1⟩, t := ⟨b1 - 1, b2 - 1, b3 - 1⟩,
                  n := ⟨c1 - 1, c2 - 1, c3 - 1⟩ } := by
  have l1 := natNumeral_length_pos b1
  have l2 := natNumeral_length_pos b2
  have l3 := natNumeral_length_pos b3
  have m1 := natNumeral_length_pos c1
  have m2 := natNumeral_length_pos c2
  have m3 := natNumeral_length_pos c3
  simp [parseFace, parseFaceLoop, parseFaceStep, segments_vtn, orPanic, Result.bind,
    storeIndex_natNumeral _ _ _ _ _ ha1.1 ha1.2, storeIndex_natNumeral _ _ _ _ _ ha2.1 ha2.2,
    storeIndex_natNumeral _ _ _ _ _ ha3.1 ha3.2, storeIndex_natNumeral _ _ _ _ _ hb1.1 hb1.2,
    storeIndex_natNumeral _ _ _ _ _ hb2.1 hb2.2, storeIndex_natNumeral _ _ _ _ _ hb3.1 hb3.2,
    storeIndex_natNumeral _ _ _ _ _ hc1.1 hc1.2, storeIndex_natNumeral _ _ _ _ _ hc2.1 hc2.2,
    storeIndex_natNumeral _ _ _ _ _ hc3.1 hc3.2,
    Arr3.set, Arr3.zero, newFaceVTN, l1, l2, l3, m1, m2, m3]

/-- The tokens of `2/3/4 5/6/7 8/9/10` give `v = (1,4,7)`, `t = (2,5,8)`,
`n = (3,6,9)`. -/
theorem parseFace_vertex_texture_normal_witness :
    Split "2/3/4 5/6/7 8/9/10".toList ' ' =
      [natNumeral 2 ++ ['/'] ++ natNumeral 3 ++ ['/'] ++ natNumeral 4,
        natNumeral 5 ++ ['/'] ++ natNumeral 6 ++ ['/'] ++ natNumeral 7,
        natNumeral 8 ++ ['/'] ++ natNumeral 9 ++ ['/'] ++ natNumeral 10] ∧
    parseFace [natNumeral 2 ++ ['/'] ++ natNumeral 3 ++ ['/'] ++ natNumeral 4,
        natNumeral 5 ++ ['/'] ++ natNumeral 6 ++ ['/'] ++ natNumeral 7,
        natNumeral 8 ++ ['/'] ++ natNumeral 9 ++ ['/'] ++ natNumeral 10] =
      Result.ok { v := ⟨1, 4, 7⟩, t := ⟨2, 5, 8⟩, n := ⟨3, 6, 9⟩ } :=
  ⟨by decide, parseFace_vertex_texture_normal 2 5 8 3 6 9 4 7 10 (by decide) (by decide)
    (by decide) (by decide) (by decide) (by decide) (by decide) (by decide) (by decide)⟩

/-- C4: for all `a1, a2, a3, c1, c2, c3` between `1` and `2^31 - 1`, `parseFace`
applied to the three tokens `ai//ci` succeeds and returns the vertex/normal face
with `v = (a1-1, a2-1, a3-1)`, `t = (0,0,0)` and `n = (c1-1, c2-1, c3-1)`. -/
theorem parseFace_vertex_normal (a1 a2 a3 c1 c2 c3 : Nat)
    (ha1 : 1 ≤ a1 ∧ a1 ≤ 2147483647) (ha2 : 1 ≤ a2 ∧ a2 ≤ 2147483647)
    (ha3 : 1 ≤ a3 ∧ a3 ≤ 2147483647) (hc1 : 1 ≤ c1 ∧ c1 ≤ 2147483647)
    (hc2 : 1 ≤ c2 ∧ c2 ≤ 2147483647) (hc3 : 1 ≤ c3 ∧ c3 ≤ 2147483647) :
    parseFace [natNumeral a1 ++ ['/', '/'] ++ natNumeral c1,
        natNumeral a2 ++ ['/', '/'] ++ natNumeral c2,
        natNumeral a3 ++ ['/', '/'] ++ natNumeral c3] =
      Result.ok { v := ⟨a1 - 1, a2 - 1, a3 - 1⟩, t := ⟨0, 0, 0⟩,
                  n := ⟨c1 - 1, c2 - 1, c3 - 1⟩ } := by
  have m1 := natNumeral_length_pos c1
  have m2 := natNumeral_length_pos c2
  have m3 := natNumeral_length_pos c3
  simp [parseFace, parseFaceLoop, parseFaceStep, segments_vn, orPanic, Result.bind,
    storeIndex_natNumeral _ _ _ _ _ ha1.1 ha1.2, storeIndex_natNumeral _ _ _ _ _ ha2.1 ha2.2,
    storeIndex_natNumeral _ _ _ _ _ ha3.1 ha3.2,
    storeIndex_natNumeral _ _ _ _ _ hc1.1 hc1.2, storeIndex_natNumeral _ _ _ _ _ hc2.1 hc2.2,
    storeIndex_natNumeral _ _ _ _ _ hc3.1 hc3.2,
    Arr3.set, Arr3.zero, newFaceVN, m1, m2, m3]

/-- The tokens of `2//3 4//5 6//7` give `v = (1,3,5)`, `n = (2,4,6)`. -/
theorem parseFace_vertex_normal_witness :
    Split "2//3 4//5 6//7".toList ' ' =
      [natNumeral 2 ++ ['/', '/'] ++ natNumeral 3, natNumeral 4 ++ ['/', '/'] ++ natNumeral 5,
        natNumeral 6 ++ ['/', '/'] ++ natNumeral 7] ∧
    parseFace [natNumeral 2 ++ ['/', '/'] ++ natNumeral 3,
        natNumeral 4 ++ ['/', '/'] ++ natNumeral 5,
        natNumeral 6 ++ ['/', '/'] ++ natNumeral 7] =
      Result.ok { v := ⟨1, 3, 5⟩, t := ⟨0, 0, 0⟩, n := ⟨2, 4, 6⟩ } :=
  ⟨by decide, parseFace_vertex_normal 2 4 6 3 5 7 (by decide) (by decide) (by decide)
    (by decide) (by decide) (by decide)⟩

/-! ## One iteration of the loop of `parseFace` -/

theorem Arr3.set_eq_update (a : Arr3) (i x : Nat) (h : i < 3) :
    a.set i x = some (a.update i x) := by
  interval_cases i <;> rfl

theorem storeIndex_eq (what : GoString) (args : List GoString) (i : Nat) (seg : GoString)
    (arr : Arr3) (h : i < 3) :
    storeIndex what args i seg arr =
      match decimalInt32 seg with
      | none => Result.error (faceErr what args i)
      | some z => Result.ok (arr.update i (sub32 (uint32 z) 1)) := by
  rcases ParseInt_spec seg with ⟨z, h1, h2⟩ | ⟨h1, h2⟩
  · simp [storeIndex, h1, h2, Arr3.set_eq_update _ _ _ h, orPanic]
  · simp [storeIndex, h1, h2]

/-- An iteration on a malformed token returns an error. -/
theorem parseFaceStep_malformed (args : List GoString) (i : Nat) (str : GoString)
    (st : FaceLoop) (hi : i < 3) (hb : malformedToken str) :
    ∃ e, parseFaceStep args i str st = Result.error e := by
  simp only [parseFaceStep, faceSegments_eq, orPanic, Result.bind, storeIndex_eq _ _ _ _ _ hi]
  cases hv : decimalInt32 (vertexSegment str) with
  | none => exact ⟨_, rfl⟩
  | some zv =>
    by_cases ht : textureSegment str = []
    · by_cases hn : normalSegment str = []
      · rcases hb with h | h | h
        · rw [hv] at h; cases h
        · exact absurd ht h.1
        · exact absurd hn h.1
      · have hnn : decimalInt32 (normalSegment str) = none := by
          rcases hb with h | h | h
          · rw [hv] at h; cases h
          · exact absurd ht h.1
          · exact h.2
        have hl : 0 < (normalSegment str).length := List.length_pos.2 hn
        simp [ht, hl, hnn]
    · have hl : 0 < (textureSegment str).length := List.length_pos.2 ht
      cases htt : decimalInt32 (textureSegment str) with
      | none => simp [hl]
      | some zt =>
        have hn : normalSegment str ≠ [] ∧ decimalInt32 (normalSegment str) = none := by
          rcases hb with h | h | h
          · rw [hv] at h; cases h
          · rw [htt] at h; cases h.2
          · exact h
        have hl2 : 0 < (normalSegment str).length := List.length_pos.2 hn.1
        simp [hl, hl2, hn.2]

/-- An iteration on a well-formed token stores the three indices it finds and
sets the two flags from the token's texture and normal segments. -/
theorem parseFaceStep_wellformed (args : List GoString) (i : Nat) (str : GoString)
    (st : FaceLoop) (hi : i < 3) (hb : ¬ malformedToken str) :
    ∃ zv : Int, decimalInt32 (vertexSegment str) = some zv ∧
      ∃ t n : Arr3,
        parseFaceStep args i str st =
          Result.ok ⟨st.v.update i (sub32 (uint32 zv) 1), t, n,
            decide (textureSegment str ≠ []), decide (normalSegment str ≠ [])⟩ ∧
        (textureSegment str = [] → t = st.t) ∧
        (normalSegment str = [] → n = st.n) ∧
        (textureSegment str ≠ [] → ∃ zt : Int, decimalInt32 (textureSegment str) = some zt ∧
          t = st.t.update i (sub32 (uint32 zt) 1)) ∧
        (normalSegment str ≠ [] → ∃ zn : Int, decimalInt32 (normalSegment str) = some zn ∧
          n = st.n.update i (sub32 (uint32 zn) 1)) := by
  simp only [malformedToken, not_or, not_and] at hb
  obtain ⟨hv, ht, hn⟩ := hb
  obtain ⟨zv, hzv⟩ := Option.ne_none_iff_exists'.1 hv
  refine ⟨zv, hzv, ?_⟩
  simp only [parseFaceStep, faceSegments_eq, orPanic, Result.bind, storeIndex_eq _ _ _ _ _ hi,
    hzv]
  by_cases hte : textureSegment str = []
  · by_cases hne : normalSegment str = []
    · exact ⟨st.t, st.n, by simp [hte, hne], fun _ => rfl, fun _ => rfl,
        fun h => absurd hte h, fun h => absurd hne h⟩
    · obtain ⟨zn, hzn⟩ := Option.ne_none_iff_exists'.1 (hn hne)
      have hl : 0 < (normalSegment str).length := List.length_pos.2 hne
      exact ⟨st.t, _, by simp [hte, hne, hl, hzn], fun _ => rfl,
        fun h => absurd h hne, fun h => absurd hte h, fun _ => ⟨zn, hzn, rfl⟩⟩
  · obtain ⟨zt, hzt⟩ := Option.ne_none_iff_exists'.1 (ht hte)
    have hlt : 0 < (textureSegment str).length := List.length_pos.2 hte
    by_cases hne : normalSegment str = []
    · exact ⟨_, st.n, by simp [hte, hne, hlt, hzt], fun h => absurd h hte,
        fun _ => rfl, fun _ => ⟨zt, hzt, rfl⟩, fun h => absurd hne h⟩
    · obtain ⟨zn, hzn⟩ := Option.ne_none_iff_exists'.1 (hn hne)
      have hl : 0 < (normalSegment str).length := List.length_pos.2 hne
      exact ⟨_, _, by simp [hte, hne, hl, hlt, hzt, hzn], fun h => absurd h hte,
        fun h => absurd h hne, fun _ => ⟨zt, hzt, rfl⟩, fun _ => ⟨zn, hzn, rfl⟩⟩

/-! ## The loop of `parseFace` -/

theorem Arr3.get_update_self (a : Arr3) (i x : Nat) (h : i < 3) : (a.update i x).get i = x := by
  interval_cases i <;> rfl

theorem Arr3.get_update_ne (a : Arr3) (i m x : Nat) (hi : i < 3) (hm : m < 3) (h : m ≠ i) :
    (a.update i x).get m = a.get m := by
  interval_cases i <;> interval_cases m <;> first | rfl | exact absurd rfl h

/-- A run of the loop of `parseFace` that ends without error leaves the entries
below `i` as they were, has stored the indices of every token, and has set the
flags from the last token. -/
theorem parseFaceLoop_ok (args : List GoString) :
    ∀ (rest : List GoString) (i : Nat) (st st1 : FaceLoop), i + rest.length ≤ 3 →
      parseFaceLoop args rest i st = Result.ok st1 →
      (∀ m, m < i → st1.v.get m = st.v.get m ∧ st1.t.get m = st.t.get m ∧
        st1.n.get m = st.n.get m) ∧
      (∀ j tok, rest[j]? = some tok → ¬ malformedToken tok ∧ SlotsStored tok (i + j) st st1) ∧
      (∀ last, rest.getLast? = some last →
        st1.hasT = decide (textureSegment last ≠ []) ∧
        st1.hasN = decide (normalSegment last ≠ [])) := by
  intro rest
  induction rest with
  | nil =>
    intro i st st1 _ h
    simp only [parseFaceLoop, Result.ok.injEq] at h
    subst h
    exact ⟨fun m _ => ⟨rfl, rfl, rfl⟩, fun j tok hj => by simp at hj, fun l hl => by simp at hl⟩
  | cons str rest ih =>
    intro i st st1 hlen h
    simp only [List.length_cons] at hlen
    have hi : i < 3 := by omega
    by_cases hb : malformedToken str
    · obtain ⟨e, he⟩ := parseFaceStep_malformed args i str st hi hb
      simp [parseFaceLoop, he, Result.bind] at h
    · obtain ⟨zv, hzv, t, n, hstep, ht0, hn0, ht1, hn1⟩ :=
        parseFaceStep_wellformed args i str st hi hb
      simp only [parseFaceLoop, hstep, Result.bind] at h
      obtain ⟨hlow, hslots, hflags⟩ := ih (i + 1) _ st1 (by omega) h
      have hti : ∀ m, m < 3 → m ≠ i → t.get m = st.t.get m := by
        intro m hm hne
        by_cases hte : textureSegment str = []
        · rw [ht0 hte]
        · obtain ⟨zt, _, e⟩ := ht1 hte
          rw [e, Arr3.get_update_ne _ _ _ _ hi hm hne]
      have hni : ∀ m, m < 3 → m ≠ i → n.get m = st.n.get m := by
        intro m hm hne
        by_cases hte : normalSegment str = []
        · rw [hn0 hte]
        · obtain ⟨zn, _, e⟩ := hn1 hte
          rw [e, Arr3.get_update_ne _ _ _ _ hi hm hne]
      refine ⟨?_, ?_, ?_⟩
      · intro m hm
        obtain ⟨a, b, c⟩ := hlow m (by omega)
        simp only at a b c
        refine ⟨?_, ?_, ?_⟩
        · rw [a, Arr3.get_update_ne _ _ _ _ hi (by omega) (by omega)]
        · rw [b, hti m (by omega) (by omega)]
        · rw [c, hni m (by omega) (by omega)]
      · intro j tok hj
        cases j with
        | zero =>
          simp only [List.getElem?_cons_zero, Option.some.injEq] at hj
          subst hj
          obtain ⟨a, b, c⟩ := hlow i (by omega)
          simp only at a b c
          refine ⟨hb, ⟨zv, hzv, ?_⟩, ?_, ?_, ?_, ?_⟩
          · rw [Nat.add_zero, a, Arr3.get_update_self _ _ _ hi]
          · intro hte
            obtain ⟨zt, e1, e2⟩ := ht1 hte
            exact ⟨zt, e1, by rw [Nat.add_zero, b, e2, Arr3.get_update_self _ _ _ hi]⟩
          · intro hte
            rw [Nat.add_zero, b, ht0 hte]
          · intro hne
            obtain ⟨zn, e1, e2⟩ := hn1 hne
            exact ⟨zn, e1, by rw [Nat.add_zero, c, e2, Arr3.get_update_self _ _ _ hi]⟩
          · intro hne
            rw [Nat.add_zero, c, hn0 hne]
        | succ j =>
          simp only [List.getElem?_cons_succ] at hj
          have hjlt : j < rest.length := by
            rcases Nat.lt_or_ge j rest.length with h | h
            · exact h
            · rw [List.getElem?_eq_none h] at hj; cases hj
          obtain ⟨hw, ⟨s1, s2, s3, s4, s5⟩⟩ := hslots j tok hj
          have hk : i + (j + 1) = i + 1 + j := by omega
          rw [hk]
          refine ⟨hw, s1, s2, ?_, s4, ?_⟩
          · intro hte
            rw [s3 hte]
            exact hti _ (by omega) (by omega)
          · intro hne
            rw [s5 hne]
            exact hni _ (by omega) (by omega)
      · intro last hl
        cases rest with
        | nil =>
          simp only [List.getLast?_singleton, Option.some.injEq] at hl
          subst hl
          simp only [parseFaceLoop, Result.ok.injEq] at h
          subst h
          exact ⟨rfl, rfl⟩
        | cons r rs =>
          rw [List.getLast?_cons_cons] at hl
          exact hflags last hl

/-- A run of the loop of `parseFace` over well-formed tokens ends without error;
a malformed token makes it return an error. -/
theorem parseFaceLoop_total (args : List GoString) :
    ∀ (rest : List GoString) (i : Nat) (st : FaceLoop), i + rest.length ≤ 3 →
      ((∃ tok ∈ rest, malformedToken tok) ∧ ∃ e, parseFaceLoop args rest i st = Result.error e) ∨
      ((∀ tok ∈ rest, ¬ malformedToken tok) ∧
        ∃ st1, parseFaceLoop args rest i st = Result.ok st1) := by
  intro rest
  induction rest with
  | nil => intro i st _; right; exact ⟨by simp, st, rfl⟩
  | cons str rest ih =>
    intro i st hlen
    simp only [List.length_cons] at hlen
    have hi : i < 3 := by omega
    by_cases hb : malformedToken str
    · left
      obtain ⟨e, he⟩ := parseFaceStep_malformed args i str st hi hb
      exact ⟨⟨str, by simp, hb⟩, e, by simp [parseFaceLoop, he, Result.bind]⟩
    · obtain ⟨zv, hzv, t, n, hstep, _⟩ := parseFaceStep_wellformed args i str st hi hb
      simp only [parseFaceLoop, hstep, Result.bind]
      rcases ih (i + 1) ⟨st.v.update i (sub32 (uint32 zv) 1), t, n,
        decide (textureSegment str ≠ []), decide (normalSegment str ≠ [])⟩ (by omega) with
        ⟨⟨tok, hm, hbad⟩, he⟩ | ⟨hgood, hok⟩
      · left
        exact ⟨⟨tok, List.mem_cons_of_mem _ hm, hbad⟩, he⟩
      · right
        refine ⟨?_, hok⟩
        intro tok hm
        rcases List.mem_cons.1 hm with e | e
        · rw [e]; exact hb
        · exact hgood tok e

/-- A malformed token among the arguments makes `parseFace` return an error. -/
theorem parseFace_error_of_malformed (args : List GoString) (tok : GoString)
    (hm : tok ∈ args) (hb : malformedToken tok) : ∃ e, parseFace args = Result.error e := by
  by_cases hlen : args.length ≠ 3
  · rw [parseFace, if_pos hlen]
    exact ⟨_, rfl⟩
  · rw [parseFace, if_neg hlen]
    rcases parseFaceLoop_total args args 0 ⟨Arr3.zero, Arr3.zero, Arr3.zero, false, false⟩
      (by omega) with ⟨_, e, he⟩ | ⟨hgood, _⟩
    · rw [he]
      exact ⟨e, rfl⟩
    · exact absurd hb (hgood tok hm)

/-- Three well-formed tokens are accepted by `parseFace`. -/
theorem parseFace_ok_of_wellformed (args : List GoString) (hlen : args.length = 3)
    (hgood : ∀ tok ∈ args, ¬ malformedToken tok) : ∃ f, parseFace args = Result.ok f := by
  rw [parseFace, if_neg (not_not.2 hlen)]
  rcases parseFaceLoop_total args args 0 ⟨Arr3.zero, Arr3.zero, Arr3.zero, false, false⟩
    (by omega) with ⟨⟨tok, hm, hb⟩, _⟩ | ⟨_, st1, hok⟩
  · exact absurd hb (hgood tok hm)
  · rw [hok]
    simp only [Result.bind]
    split_ifs <;> exact ⟨_, rfl⟩

/-- C6: `parseFace` returns a face or an error, never panics, and it returns an
error exactly when the number of tokens is not 3 or some token has a vertex
segment, or a non-empty texture or normal segment, that is not a base-10 signed
32-bit integer. -/
theorem parseFace_error_iff (args : List GoString) :
    ((∃ f, parseFace args = Result.ok f) ∨ (∃ e, parseFace args = Result.error e)) ∧
    ((∃ e, parseFace args = Result.error e) ↔
      (args.length ≠ 3 ∨ ∃ tok ∈ args, malformedToken tok)) := by
  by_cases hlen : args.length ≠ 3
  · have : ∃ e, parseFace args = Result.error e := by
      rw [parseFace, if_pos hlen]
      exact ⟨_, rfl⟩
    exact ⟨Or.inr this, fun _ => Or.inl hlen, fun _ => this⟩
  · have h3 : args.length = 3 := not_not.1 hlen
    simp only [parseFace, if_neg hlen]
    rcases parseFaceLoop_total args args 0 ⟨Arr3.zero, Arr3.zero, Arr3.zero, false, false⟩
      (by omega) with ⟨hbad, e, he⟩ | ⟨hgood, st1, hok⟩
    · have : ∃ e1, (Result.error e : Result FaceLoop).bind (fun st =>
          if st.hasT = false ∧ st.hasN = false then Result.ok (newFaceV st.v)
          else if st.hasT = true ∧ st.hasN = false then Result.ok (newFaceVT st.v st.t)
          else if st.hasT = false ∧ st.hasN = true then Result.ok (newFaceVN st.v st.n)
          else Result.ok (newFaceVTN st.v st.t st.n)) = Result.error e1 := ⟨e, rfl⟩
      rw [he]
      exact ⟨Or.inr this, fun _ => Or.inr hbad, fun _ => this⟩
    · rw [hok]
      simp only [Result.bind]
      have hf : ∃ f, (if st1.hasT = false ∧ st1.hasN = false then Result.ok (newFaceV st1.v)
          else if st1.hasT = true ∧ st1.hasN = false then Result.ok (newFaceVT st1.v st1.t)
          else if st1.hasT = false ∧ st1.hasN = true then Result.ok (newFaceVN st1.v st1.n)
          else Result.ok (newFaceVTN st1.v st1.t st1.n)) = Result.ok f := by
        split_ifs <;> exact ⟨_, rfl⟩
      obtain ⟨f, hf⟩ := hf
      rw [hf]
      refine ⟨Or.inl ⟨f, rfl⟩, ?_, ?_⟩
      · rintro ⟨e, he⟩; cases he
      · rintro (h | ⟨tok, hm, hb⟩)
        · exact absurd h hlen
        · exact absurd hb (hgood tok hm)

/-! ## Stored indices -/

theorem decimalInt32_range (s : GoString) (z : Int) (h : decimalInt32 s = some z) :
    -(2147483648 : Int) ≤ z ∧ z ≤ 2147483647 := by
  have key : ∀ (neg : Bool) (ds : GoString), signedDecimal32 neg ds = some z →
      -(2147483648 : Int) ≤ z ∧ z ≤ 2147483647 := by
    intro neg ds hs
    simp only [signedDecimal32] at hs
    by_cases h1 : ds ≠ [] ∧ ds.all isDigit = true
    · rw [if_pos h1] at hs
      cases neg with
      | false =>
        by_cases h2 : -(2147483648 : Int) ≤ (decValue ds : Int) ∧ (decValue ds : Int) ≤ 2147483647
        · simp only [Bool.false_eq_true, if_false, if_pos h2, Option.some.injEq] at hs
          rw [← hs]; exact h2
        · simp only [Bool.false_eq_true, if_false, if_neg h2] at hs
          cases hs
      | true =>
        by_cases h2 : -(2147483648 : Int) ≤ -(decValue ds : Int) ∧
            -(decValue ds : Int) ≤ 2147483647
        · simp only [if_true, if_pos h2, Option.some.injEq] at hs
          rw [← hs]; exact h2
        · simp only [if_true, if_neg h2] at hs
          cases hs
    · rw [if_neg h1] at hs
      cases hs
  cases s with
  | nil => simp [decimalInt32] at h
  | cons c cs =>
    simp only [decimalInt32] at h
    split_ifs at h
    · exact key _ _ h
    · exact key _ _ h
    · exact key _ _ h

theorem decimalInt32_nil : decimalInt32 [] = none := rfl

/-- The stored value `uint32(idx) - 1` is `idx - 1` modulo `2^32`. -/
theorem sub32_uint32 (z : Int) :
    ((sub32 (uint32 z) 1 : Nat) : Int) = (z - 1) % 4294967296 := by
  simp only [sub32, uint32]
  norm_num
  omega

theorem sub32_uint32_pos (z : Int) (h1 : 1 ≤ z) (h2 : z ≤ 2147483647) :
    ((sub32 (uint32 z) 1 : Nat) : Int) = z - 1 := by
  rw [sub32_uint32]
  omega

/-- The face returned by `parseFace` comes from the final state of its loop. -/
theorem parseFace_ok (args : List GoString) (f : Face) (h : parseFace args = Result.ok f) :
    args.length = 3 ∧ ∃ st1,
      parseFaceLoop args args 0 ⟨Arr3.zero, Arr3.zero, Arr3.zero, false, false⟩ = Result.ok st1 ∧
      f.v = st1.v ∧ f.t = (if st1.hasT then st1.t else Arr3.zero) ∧
      f.n = (if st1.hasN then st1.n else Arr3.zero) := by
  by_cases hlen : args.length ≠ 3
  · simp [parseFace, hlen] at h
  · refine ⟨not_not.1 hlen, ?_⟩
    simp only [parseFace, if_neg hlen] at h
    cases hl : parseFaceLoop args args 0 ⟨Arr3.zero, Arr3.zero, Arr3.zero, false, false⟩ with
    | error e => rw [hl] at h; simp [Result.bind] at h
    | panic => rw [hl] at h; simp [Result.bind] at h
    | ok st1 =>
      rw [hl] at h
      refine ⟨st1, rfl, ?_⟩
      obtain ⟨v, t, n, hasT, hasN⟩ := st1
      cases hasT <;> cases hasN <;>
        simp [Result.bind, newFaceV, newFaceVT, newFaceVN, newFaceVTN] at h <;>
        subst h <;> simp

/-- C5, amended: for three tokens of one common shape that `parseFace` accepts,
and every integer the parser accepts in a segment, the index stored for that
segment is the parsed value minus 1 modulo `2^32` (the arithmetic is that of
`uint32`), hence the parsed value minus 1 when the parsed value is at least 1;
this holds for the vertex, the texture and the normal slot of each token. -/
theorem parseFace_stored_index (s0 s1 s2 : GoString) (f : Face)
    (hshape : tokenShape s0 = tokenShape s2 ∧ tokenShape s1 = tokenShape s2)
    (h : parseFace [s0, s1, s2] = Result.ok f) :
    ∀ (i : Nat) (tok : GoString) (z : Int), [s0, s1, s2][i]? = some tok →
      (ParseInt (vertexSegment tok) 32 = (z, none) →
        ((f.v.get i : Nat) : Int) = (z - 1) % 4294967296 ∧
        (1 ≤ z → ((f.v.get i : Nat) : Int) = z - 1)) ∧
      (ParseInt (textureSegment tok) 32 = (z, none) →
        ((f.t.get i : Nat) : Int) = (z - 1) % 4294967296 ∧
        (1 ≤ z → ((f.t.get i : Nat) : Int) = z - 1)) ∧
      (ParseInt (normalSegment tok) 32 = (z, none) →
        ((f.n.get i : Nat) : Int) = (z - 1) % 4294967296 ∧
        (1 ≤ z → ((f.n.get i : Nat) : Int) = z - 1)) := by
  intro i tok z hi
  obtain ⟨_, st1, hloop, hv, ht, hn⟩ := parseFace_ok _ f h
  obtain ⟨_, hslots, hflags⟩ := parseFaceLoop_ok _ _ 0 _ st1 (by simp) hloop
  obtain ⟨hT, hN⟩ := hflags s2 rfl
  obtain ⟨_, ⟨zv, hzv, ev⟩, st, _, sn, _⟩ := hslots i tok hi
  rw [Nat.zero_add] at ev st sn
  have hsh : tokenShape tok = tokenShape s2 := by
    rcases i with _ | _ | _ | i
    · simp only [List.getElem?_cons_zero, Option.some.injEq] at hi
      rw [← hi]; exact hshape.1
    · simp only [List.getElem?_cons_succ, List.getElem?_cons_zero, Option.some.injEq] at hi
      rw [← hi]; exact hshape.2
    · simp only [List.getElem?_cons_succ, List.getElem?_cons_zero, Option.some.injEq] at hi
      rw [← hi]
    · simp at hi
  simp only [tokenShape, Prod.mk.injEq] at hsh
  refine ⟨?_, ?_, ?_⟩
  · intro hp
    rw [ParseInt_eq_iff, hzv, Option.some.injEq] at hp
    subst hp
    rw [hv, ev]
    exact ⟨sub32_uint32 zv, fun h1 => sub32_uint32_pos zv h1 (decimalInt32_range _ _ hzv).2⟩
  · intro hp
    rw [ParseInt_eq_iff] at hp
    have hne : textureSegment tok ≠ [] := by
      intro e; rw [e, decimalInt32_nil] at hp; cases hp
    obtain ⟨zt, hzt, et⟩ := st hne
    rw [hzt, Option.some.injEq] at hp
    subst hp
    have hflag : st1.hasT = true := by
      rw [hT, ← hsh.1]
      exact decide_eq_true hne
    rw [ht, hflag, if_pos rfl, et]
    exact ⟨sub32_uint32 zt, fun h1 => sub32_uint32_pos zt h1 (decimalInt32_range _ _ hzt).2⟩
  · intro hp
    rw [ParseInt_eq_iff] at hp
    have hne : normalSegment tok ≠ [] := by
      intro e; rw [e, decimalInt32_nil] at hp; cases hp
    obtain ⟨zn, hzn, en⟩ := sn hne
    rw [hzn, Option.some.injEq] at hp
    subst hp
    have hflag : st1.hasN = true := by
      rw [hN, ← hsh.2]
      exact decide_eq_true hne
    rw [hn, hflag, if_pos rfl, en]
    exact ⟨sub32_uint32 zn, fun h1 => sub32_uint32_pos zn h1 (decimalInt32_range _ _ hzn).2⟩

/-- The tokens `2/3 4/5 6/7`: the texture index stored for the second token is
`5 - 1`. -/
theorem parseFace_stored_index_witness :
    parseFace ["2/3".toList, "4/5".toList, "6/7".toList] =
      Result.ok { v := ⟨1, 3, 5⟩, t := ⟨2, 4, 6⟩, n := ⟨0, 0, 0⟩ } ∧
    (((⟨2, 4, 6⟩ : Arr3).get 1 : Nat) : Int) = 5 - 1 :=
  ⟨by decide,
    ((parseFace_stored_index "2/3".toList "4/5".toList "6/7".toList
      { v := ⟨1, 3, 5⟩, t := ⟨2, 4, 6⟩, n := ⟨0, 0, 0⟩ } (by decide) (by decide)
      1 "4/5".toList 5 (by decide)).2.1 (by decide)).2 (by decide)⟩

/-- C5 as stated fails on the accepted value `0`: the tokens `0 1 1` have one
common shape and are accepted, the parser accepts `0` in the first vertex
segment, and the stored index is `4294967295`, not `0 - 1`. -/
theorem parseFace_stored_index_counterexample :
    tokenShape "0".toList = tokenShape "1".toList ∧
    parseFace ["0".toList, "1".toList, "1".toList] =
      Result.ok { v := ⟨4294967295, 0, 0⟩, t := ⟨0, 0, 0⟩, n := ⟨0, 0, 0⟩ } ∧
    ParseInt (vertexSegment "0".toList) 32 = (0, none) ∧
    (((⟨4294967295, 0, 0⟩ : Arr3).get 0 : Nat) : Int) ≠ 0 - 1 := by
  decide

/-! ## The loop of `parseObj` -/

theorem Split_ne_nil (s : GoString) (sep : Char) : Split s sep ≠ [] := by
  cases s with
  | nil => simp [Split]
  | cons c cs =>
    rw [Split]
    split_ifs
    · simp
    · cases Split cs sep <;> simp

theorem parseObjLines_append {F : Type} (fl : Float32Ops F) (M : MaterialMap F)
    (pre post : List GoString) :
    ∀ st : ObjState F, parseObjLines fl M (pre ++ post) st =
      (parseObjLines fl M pre st).bind fun st1 => parseObjLines fl M post st1 := by
  induction pre with
  | nil => intro st; rfl
  | cons l ls ih =>
    intro st
    simp only [List.cons_append, parseObjLines]
    cases parseObjLine fl M st l with
    | ok st1 => simp only [Result.bind]; exact ih st1
    | error e => rfl
    | panic => rfl

/-- C7, at the failing input: on the text `f 1 2 3`, where a well-formed `f` line
comes before any `usemtl` line, `parseObj` panics on the nil `subMesh`; it does
not return the error that the claim states. -/
theorem parseObj_face_before_usemtl {F : Type} (fl : Float32Ops F) (M : MaterialMap F) :
    parseFace (lineArgs "f 1 2 3".toList) =
      Result.ok { v := ⟨0, 1, 2⟩, t := ⟨0, 0, 0⟩, n := ⟨0, 0, 0⟩ } ∧
    parseObj fl "f 1 2 3".toList M = Result.panic ∧
    (parseObj fl "f 1 2 3".toList M).isError = false :=
  ⟨by decide, rfl, rfl⟩

/-- C8: when every line before line `l` is accepted, and the first token of the
trimmed, non-blank line `l` is none of the recognised keywords, `parseObj`
returns no mesh but the error whose message names the line and its tokens. -/
theorem parseObj_unknown_directive {F : Type} (fl : Float32Ops F) (M : MaterialMap F)
    (objStr : GoString) (pre post : List GoString) (l : GoString) (st : ObjState F)
    (hsplit : Split objStr '\n' = pre ++ l :: post)
    (hpre : parseObjLines fl M pre (initialState M) = Result.ok st)
    (hline : TrimSpace l ≠ [])
    (hkw : keyword l ∉ knownKeywords) :
    parseObj fl objStr M =
      Result.error ("Unknown obj definition: (".toList ++ TrimSpace l ++ "), ".toList ++
        fmtStrings (lineTokens l)) := by
  have hstep : parseObjLine fl M st l =
      Result.error (unknownDefinition (TrimSpace l) (lineTokens l)) := by
    simp only [knownKeywords, List.mem_cons, List.mem_singleton, List.not_mem_nil, or_false,
      not_or] at hkw
    obtain ⟨k1, k2, k3, k4, k5, k6, k7, k8⟩ := hkw
    have hl : ¬ (TrimSpace l).length = 0 := fun e => hline (List.length_eq_zero.1 e)
    have hne := Split_ne_nil (TrimSpace l) ' '
    simp only [keyword, lineTokens] at k1 k2 k3 k4 k5 k6 k7 k8
    simp only [parseObjLine, lineTokens, if_neg hl]
    cases hs : Split (TrimSpace l) ' ' with
    | nil => exact absurd hs hne
    | cons kw args =>
      rw [hs] at k1 k2 k3 k4 k5 k6 k7 k8
      simp only [List.headD_cons] at k1 k2 k3 k4 k5 k6 k7 k8
      simp only [List.length_cons, Nat.add_one_ne_zero, if_false]
      rw [if_neg k1, if_neg k2, if_neg k3, if_neg k4, if_neg k5, if_neg k6, if_neg k7, if_neg k8]
  rw [parseObj, hsplit, parseObjLines_append, hpre]
  simp only [Result.bind, parseObjLines, hstep, unknownDefinition]

/-- The text `xyz 1 2 3` is rejected with the message
`Unknown obj definition: (xyz 1 2 3), [xyz 1 2 3]`. -/
theorem parseObj_unknown_directive_witness :
    Split "xyz 1 2 3".toList '\n' = [] ++ "xyz 1 2 3".toList :: [] ∧
    keyword "xyz 1 2 3".toList ∉ knownKeywords ∧
    parseObj exampleFloats "xyz 1 2 3".toList [] =
      Result.error "Unknown obj definition: (xyz 1 2 3), [xyz 1 2 3]".toList :=
  ⟨by decide, by decide,
    parseObj_unknown_directive exampleFloats [] "xyz 1 2 3".toList [] [] "xyz 1 2 3".toList
      (initialState []) (by decide) rfl (by decide) (by decide)⟩

theorem set_last {α : Type} (init : List α) (last x : α) :
    (init ++ [last]).set init.length x = init ++ [x] := by
  induction init with
  | nil => rfl
  | cons a as ih => simp [List.set, ih]

theorem getElem?_last {α : Type} (init : List α) (last : α) :
    (init ++ [last])[init.length]? = some last := by
  induction init with
  | nil => rfl
  | cons a as ih => simp

/-- What one accepted line does to the sub-meshes: a `usemtl` line adds one, an
`f` line adds its face to the last one, any other line leaves them as they are. -/
theorem parseObjLine_effect {F : Type} (fl : Float32Ops F) (M : MaterialMap F)
    (st st1 : ObjState F) (l : GoString) (hinv : ObjInv st)
    (h : parseObjLine fl M st l = Result.ok st1) :
    ObjInv st1 ∧
    ((isUsemtlLine l = true ∧ st1.mesh.SubMeshes =
        st.mesh.SubMeshes ++ [⟨usemtlName l, M.lookup (usemtlName l), []⟩]) ∨
     (isUsemtlLine l = false ∧ isFaceLine l = true ∧ ∃ f init last,
        parseFace (lineArgs l) = Result.ok f ∧ st.mesh.SubMeshes = init ++ [last] ∧
        st1.mesh.SubMeshes = init ++ [{ last with Faces := last.Faces ++ [f] }]) ∨
     (isUsemtlLine l = false ∧ isFaceLine l = false ∧
        st1.mesh.SubMeshes = st.mesh.SubMeshes)) := by
  have same : ∀ s : ObjState F, s.mesh.SubMeshes = st.mesh.SubMeshes →
      s.subMesh = st.subMesh → ObjInv s := by
    intro s e1 e2
    simp only [ObjInv, e1, e2]
    exact hinv
  by_cases hl : (TrimSpace l).length = 0
  · have e : TrimSpace l = [] := List.length_eq_zero.1 hl
    simp only [parseObjLine, if_pos hl, Result.ok.injEq] at h
    subst h
    refine ⟨hinv, Or.inr (Or.inr ⟨?_, ?_, rfl⟩)⟩
    · simp only [isUsemtlLine, keyword, lineTokens, e]; decide
    · simp only [isFaceLine, keyword, lineTokens, e]; decide
  · have hne := Split_ne_nil (TrimSpace l) ' '
    simp only [parseObjLine, if_neg hl] at h
    obtain ⟨kw, args, hs⟩ : ∃ kw args, Split (TrimSpace l) ' ' = kw :: args := by
      cases hs : Split (TrimSpace l) ' ' with
      | nil => exact absurd hs hne
      | cons kw args => exact ⟨kw, args, rfl⟩
    have hU : isUsemtlLine l = decide (kw = "usemtl".toList) := by
      simp only [isUsemtlLine, keyword, lineTokens, hs, List.headD_cons]
    have hF : isFaceLine l = decide (kw = "f".toList) := by
      simp only [isFaceLine, keyword, lineTokens, hs, List.headD_cons]
    have hA : lineArgs l = args := by
      simp only [lineArgs, lineTokens, hs, List.tail_cons]
    have hN : usemtlName l = args.headD [] := by
      simp only [usemtlName, hA]
    rw [hU, hF, hA, hN]
    rw [hs] at h
    · simp only [List.length_cons, Nat.add_one_ne_zero, if_false] at h
      by_cases k1 : kw = "#".toList
      · rw [if_pos k1] at h
        simp only [Result.ok.injEq] at h
        subst h
        exact ⟨hinv, Or.inr (Or.inr ⟨by rw [k1]; decide, by rw [k1]; decide, rfl⟩)⟩
      rw [if_neg k1] at h
      by_cases k2 : kw = "mtllib".toList
      · rw [if_pos k2] at h
        simp only [Result.ok.injEq] at h
        subst h
        exact ⟨hinv, Or.inr (Or.inr ⟨by rw [k2]; decide, by rw [k2]; decide, rfl⟩)⟩
      rw [if_neg k2] at h
      by_cases k3 : kw = "usemtl".toList
      · rw [if_pos k3] at h
        cases args with
        | nil => simp [parseMaterialName, Result.bind] at h
        | cons a as =>
          cases as with
          | cons b bs => simp [parseMaterialName, Result.bind] at h
          | nil =>
            simp only [parseMaterialName, Result.bind, Result.ok.injEq] at h
            subst h
            refine ⟨Or.inr ⟨by simp, by simp⟩, Or.inl ⟨by rw [k3]; decide, rfl⟩⟩
      rw [if_neg k3] at h
      have hu : decide (kw = "usemtl".toList) = false := decide_eq_false k3
      by_cases k4 : kw = "o".toList
      · rw [if_pos k4] at h
        cases hp : parseObjectName args with
        | error e => rw [hp] at h; simp [Result.bind] at h
        | panic => rw [hp] at h; simp [Result.bind] at h
        | ok nm =>
          rw [hp] at h
          simp only [Result.bind, Result.ok.injEq] at h
          subst h
          exact ⟨same _ rfl rfl, Or.inr (Or.inr ⟨hu, by rw [k4]; decide, rfl⟩)⟩
      rw [if_neg k4] at h
      by_cases k5 : kw = "s".toList
      · rw [if_pos k5] at h
        simp only [Result.ok.injEq] at h
        subst h
        exact ⟨hinv, Or.inr (Or.inr ⟨hu, by rw [k5]; decide, rfl⟩)⟩
      rw [if_neg k5] at h
      by_cases k6 : kw = "v".toList
      · rw [if_pos k6] at h
        cases hp : parseVertex fl args with
        | error e => rw [hp] at h; simp [Result.bind] at h
        | panic => rw [hp] at h; simp [Result.bind] at h
        | ok v =>
          rw [hp] at h
          simp only [Result.bind, Result.ok.injEq] at h
          subst h
          exact ⟨same _ rfl rfl, Or.inr (Or.inr ⟨hu, by rw [k6]; decide, rfl⟩)⟩
      rw [if_neg k6] at h
      by_cases k7 : kw = "vn".toList
      · rw [if_pos k7] at h
        cases hp : parseVertex fl args with
        | error e => rw [hp] at h; simp [Result.bind] at h
        | panic => rw [hp] at h; simp [Result.bind] at h
        | ok v =>
          rw [hp] at h
          simp only [Result.bind, Result.ok.injEq] at h
          subst h
          exact ⟨same _ rfl rfl, Or.inr (Or.inr ⟨hu, by rw [k7]; decide, rfl⟩)⟩
      rw [if_neg k7] at h
      by_cases k8 : kw = "f".toList
      · rw [if_pos k8] at h
        cases hp : parseFace args with
        | error e => rw [hp] at h; simp [Result.bind] at h
        | panic => rw [hp] at h; simp [Result.bind] at h
        | ok f =>
          rw [hp] at h
          simp only [Result.bind] at h
          rcases hinv with ⟨_, hnone⟩ | ⟨hsm, hsome⟩
          · simp [appendFace, hnone] at h
          · rcases List.eq_nil_or_concat st.mesh.SubMeshes with e | ⟨init, last, e⟩
            · exact absurd e hsm
            · rw [List.concat_eq_append] at e
              have hidx : st.subMesh = some init.length := by
                rw [hsome, e]; simp
              simp only [appendFace, hidx, e, getElem?_last, set_last, Result.ok.injEq] at h
              subst h
              refine ⟨Or.inr ⟨by simp, ?_⟩, Or.inr (Or.inl ⟨hu, decide_eq_true k8, f, init, last,
                rfl, e, rfl⟩)⟩
              simp only [hidx, List.length_append, List.length_singleton, Nat.add_sub_cancel]
      · rw [if_neg k8] at h
        cases h

theorem untilUsemtl_cons (l : GoString) (ls : List GoString) :
    untilUsemtl (l :: ls) = if isUsemtlLine l = true then [] else l :: untilUsemtl ls := by
  simp only [untilUsemtl, List.takeWhile_cons]
  cases isUsemtlLine l <;> simp

theorem faceOfLine_of_not_face (l : GoString) (h : isFaceLine l = false) :
    faceOfLine l = none := by
  simp [faceOfLine, h]

theorem faceOfLine_of_ok (l : GoString) (f : Face) (h : isFaceLine l = true)
    (hp : parseFace (lineArgs l) = Result.ok f) : faceOfLine l = some f := by
  simp [faceOfLine, h, hp]

/-- Once a sub-mesh exists, an accepted run of the loop of `parseObj` adds to
the last sub-mesh the faces of the lines before the next `usemtl` line, then
the sub-meshes that the remaining lines describe. -/
theorem parseObjLines_from_last {F : Type} (fl : Float32Ops F) (M : MaterialMap F) :
    ∀ (lines : List GoString) (st st1 : ObjState F) (init : List (SubMesh F))
      (last : SubMesh F), ObjInv st → st.mesh.SubMeshes = init ++ [last] →
      parseObjLines fl M lines st = Result.ok st1 →
      st1.mesh.SubMeshes = init ++
          [{ last with Faces := last.Faces ++ (untilUsemtl lines).filterMap faceOfLine }] ++
          subMeshesOf M lines ∧
        (∀ l ∈ lines, isFaceLine l = true → (faceOfLine l).isSome = true) := by
  intro lines
  induction lines with
  | nil =>
    intro st st1 init last _ hs h
    simp only [parseObjLines, Result.ok.injEq] at h
    subst h
    simp [untilUsemtl, subMeshesOf, hs]
  | cons l ls ih =>
    intro st st1 init last hinv hs h
    simp only [parseObjLines] at h
    cases hstep : parseObjLine fl M st l with
    | error e => rw [hstep] at h; simp [Result.bind] at h
    | panic => rw [hstep] at h; simp [Result.bind] at h
    | ok st2 =>
      rw [hstep] at h
      simp only [Result.bind] at h
      obtain ⟨hinv2, hcase⟩ := parseObjLine_effect fl M st st2 l hinv hstep
      rcases hcase with ⟨hu, e2⟩ | ⟨hu, hf, f, init2, last2, hp, e1, e2⟩ | ⟨hu, hf, e2⟩
      · rw [hs] at e2
        obtain ⟨r1, r2⟩ := ih st2 st1 (init ++ [last]) _ hinv2 e2 h
        have hnf : isFaceLine l = false := by
          simp only [isUsemtlLine, decide_eq_true_eq] at hu
          simp only [isFaceLine, hu]; decide
        refine ⟨?_, ?_⟩
        · rw [r1, untilUsemtl_cons, if_pos hu]
          simp [subMeshesOf, hu]
        · intro x hx hfx
          rcases List.mem_cons.1 hx with e | e
          · rw [e, hnf] at hfx; cases hfx
          · exact r2 x e hfx
      · rw [hs] at e1
        obtain ⟨ei, el⟩ := List.append_inj' e1 rfl
        simp only [List.cons.injEq, and_true] at el
        subst ei el
        obtain ⟨r1, r2⟩ := ih st2 st1 init _ hinv2 e2 h
        have hfl := faceOfLine_of_ok l f hf hp
        refine ⟨?_, ?_⟩
        · rw [r1, untilUsemtl_cons]
          simp [subMeshesOf, hu, hfl]
        · intro x hx hfx
          rcases List.mem_cons.1 hx with e | e
          · rw [e, hfl]; rfl
          · exact r2 x e hfx
      · rw [hs] at e2
        obtain ⟨r1, r2⟩ := ih st2 st1 init last hinv2 e2 h
        have hfl := faceOfLine_of_not_face l hf
        refine ⟨?_, ?_⟩
        · rw [r1, untilUsemtl_cons]
          simp [subMeshesOf, hu, hfl]
        · intro x hx hfx
          rcases List.mem_cons.1 hx with e | e
          · rw [e, hf] at hfx; cases hfx
          · exact r2 x e hfx

/-- From a state without sub-mesh, an accepted run of the loop of `parseObj`
builds the sub-meshes that the lines describe, and no `f` line comes before the
first `usemtl` line. -/
theorem parseObjLines_from_empty {F : Type} (fl : Float32Ops F) (M : MaterialMap F) :
    ∀ (lines : List GoString) (st st1 : ObjState F), ObjInv st → st.mesh.SubMeshes = [] →
      parseObjLines fl M lines st = Result.ok st1 →
      st1.mesh.SubMeshes = subMeshesOf M lines ∧
        (∀ l ∈ untilUsemtl lines, isFaceLine l = false) ∧
        (∀ l ∈ lines, isFaceLine l = true → (faceOfLine l).isSome = true) := by
  intro lines
  induction lines with
  | nil =>
    intro st st1 _ hs h
    simp only [parseObjLines, Result.ok.injEq] at h
    subst h
    simp [untilUsemtl, subMeshesOf, hs]
  | cons l ls ih =>
    intro st st1 hinv hs h
    simp only [parseObjLines] at h
    cases hstep : parseObjLine fl M st l with
    | error e => rw [hstep] at h; simp [Result.bind] at h
    | panic => rw [hstep] at h; simp [Result.bind] at h
    | ok st2 =>
      rw [hstep] at h
      simp only [Result.bind] at h
      obtain ⟨hinv2, hcase⟩ := parseObjLine_effect fl M st st2 l hinv hstep
      rcases hcase with ⟨hu, e2⟩ | ⟨hu, hf, f, init2, last2, hp, e1, e2⟩ | ⟨hu, hf, e2⟩
      · rw [hs, List.nil_append] at e2
        obtain ⟨r1, r2⟩ := parseObjLines_from_last fl M ls st2 st1 [] _ hinv2 e2 h
        have hnf : isFaceLine l = false := by
          simp only [isUsemtlLine, decide_eq_true_eq] at hu
          simp only [isFaceLine, hu]; decide
        refine ⟨?_, ?_, ?_⟩
        · rw [r1]
          simp [subMeshesOf, hu]
        · rw [untilUsemtl_cons, if_pos hu]
          intro x hx; cases hx
        · intro x hx hfx
          rcases List.mem_cons.1 hx with e | e
          · rw [e, hnf] at hfx; cases hfx
          · exact r2 x e hfx
      · rw [hs] at e1
        simp at e1
      · rw [hs] at e2
        obtain ⟨r1, r2, r3⟩ := ih st2 st1 hinv2 e2 h
        refine ⟨?_, ?_, ?_⟩
        · rw [r1]
          simp [subMeshesOf, hu]
        · rw [untilUsemtl_cons]
          simp only [hu, Bool.false_eq_true, if_false]
          intro x hx
          rcases List.mem_cons.1 hx with e | e
          · rw [e]; exact hf
          · exact r2 x e
        · intro x hx hfx
          rcases List.mem_cons.1 hx with e | e
          · rw [e, hf] at hfx; cases hfx
          · exact r3 x e hfx

theorem parseObj_ok {F : Type} (fl : Float32Ops F) (M : MaterialMap F) (objStr : GoString)
    (mesh : ObjMesh F) (h : parseObj fl objStr M = Result.ok mesh) :
    ∃ st1, parseObjLines fl M (Split objStr '\n') (initialState M) = Result.ok st1 ∧
      st1.mesh = mesh := by
  simp only [parseObj] at h
  cases hl : parseObjLines fl M (Split objStr '\n') (initialState M) with
  | error e => rw [hl] at h; simp [Result.bind] at h
  | panic => rw [hl] at h; simp [Result.bind] at h
  | ok st1 =>
    rw [hl] at h
    simp only [Result.bind, Result.ok.injEq] at h
    exact ⟨st1, rfl, h⟩

theorem subMeshesOf_names {F : Type} (M : MaterialMap F) (lines : List GoString) :
    (subMeshesOf M lines).map (fun sm => (sm.MaterialName, sm.Material)) =
      (lines.filter isUsemtlLine).map (fun l => (usemtlName l, M.lookup (usemtlName l))) := by
  induction lines with
  | nil => rfl
  | cons l ls ih =>
    cases hu : isUsemtlLine l <;> simp [subMeshesOf, hu, List.filter_cons, ih]

theorem subMeshesOf_faces {F : Type} (M : MaterialMap F) (lines : List GoString) :
    (subMeshesOf M lines).map (fun sm => sm.Faces) =
      (usemtlSections lines).map (fun sec => sec.filterMap faceOfLine) := by
  induction lines with
  | nil => rfl
  | cons l ls ih =>
    cases hu : isUsemtlLine l <;> simp [subMeshesOf, usemtlSections, hu, ih]

theorem subMeshesOf_count {F : Type} (M : MaterialMap F) (lines : List GoString)
    (hall : ∀ l ∈ lines, isFaceLine l = true → (faceOfLine l).isSome = true) :
    ((untilUsemtl lines).filterMap faceOfLine).length +
        ((subMeshesOf M lines).map (fun sm => sm.Faces.length)).sum =
      (lines.filter isFaceLine).length := by
  induction lines with
  | nil => rfl
  | cons l ls ih =>
    have ih1 := ih (fun x hx => hall x (List.mem_cons_of_mem _ hx))
    rw [untilUsemtl_cons]
    cases hu : isUsemtlLine l
    · cases hf : isFaceLine l
      · have := faceOfLine_of_not_face l hf
        simp [subMeshesOf, hu, List.filter_cons, hf, this, ih1]
      · obtain ⟨f, hfl⟩ := Option.isSome_iff_exists.1 (hall l (List.mem_cons_self _ _) hf)
        simp [subMeshesOf, hu, List.filter_cons, hf, hfl, ← ih1]
        omega
    · have hnf : isFaceLine l = false := by
        simp only [isUsemtlLine, decide_eq_true_eq] at hu
        simp only [isFaceLine, hu]; decide
      simp [subMeshesOf, hu, List.filter_cons, hnf, ← ih1]

/-- The names and the materials of the sub-meshes of the mesh that `parseObj`
returns are those of the `usemtl` lines, in order. -/
theorem parseObj_subMeshes_names {F : Type} (fl : Float32Ops F) (M : MaterialMap F)
    (objStr : GoString) (mesh : ObjMesh F) (h : parseObj fl objStr M = Result.ok mesh) :
    mesh.SubMeshes.map (fun sm => (sm.MaterialName, sm.Material)) =
      ((Split objStr '\n').filter isUsemtlLine).map
        (fun l => (usemtlName l, M.lookup (usemtlName l))) := by
  obtain ⟨st1, hrun, hm⟩ := parseObj_ok fl M objStr mesh h
  obtain ⟨r1, _, _⟩ := parseObjLines_from_empty fl M _ _ st1 (Or.inl ⟨rfl, rfl⟩) rfl hrun
  rw [← hm, r1, subMeshesOf_names]

/-- C10: in the mesh that `parseObj` returns, the faces of the k-th sub-mesh are
the faces that `parseFace` returns for the `f` lines between the k-th `usemtl`
line and the next one, in order, and the total number of faces is the number
of `f` lines. -/
theorem parseObj_faces {F : Type} (fl : Float32Ops F) (M : MaterialMap F)
    (objStr : GoString) (mesh : ObjMesh F) (h : parseObj fl objStr M = Result.ok mesh) :
    mesh.SubMeshes.map (fun sm => sm.Faces) =
        (usemtlSections (Split objStr '\n')).map (fun sec => sec.filterMap faceOfLine) ∧
      (∀ l ∈ Split objStr '\n', isFaceLine l = true →
        ∃ f, parseFace (lineArgs l) = Result.ok f ∧ faceOfLine l = some f) ∧
      (mesh.SubMeshes.map (fun sm => sm.Faces.length)).sum =
        ((Split objStr '\n').filter isFaceLine).length := by
  obtain ⟨st1, hrun, hm⟩ := parseObj_ok fl M objStr mesh h
  obtain ⟨r1, r2, r3⟩ := parseObjLines_from_empty fl M _ _ st1 (Or.inl ⟨rfl, rfl⟩) rfl hrun
  refine ⟨by rw [← hm, r1, subMeshesOf_faces], ?_, ?_⟩
  · intro l hl hf
    obtain ⟨f, hfl⟩ := Option.isSome_iff_exists.1 (r3 l hl hf)
    refine ⟨f, ?_, hfl⟩
    simp only [faceOfLine, hf, if_true] at hfl
    cases hp : parseFace (lineArgs l) with
    | ok g => rw [hp] at hfl; simp only [Option.some.injEq] at hfl; rw [hfl]
    | error e => rw [hp] at hfl; cases hfl
    | panic => rw [hp] at hfl; cases hfl
  · have hc := subMeshesOf_count M (Split objStr '\n') r3
    have h0 : (untilUsemtl (Split objStr '\n')).filterMap faceOfLine = [] := by
      rw [List.filterMap_eq_nil_iff]
      intro x hx
      exact faceOfLine_of_not_face x (r2 x hx)
    rw [h0, List.length_nil, Nat.zero_add] at hc
    rw [← hm, r1, hc]

set_option maxRecDepth 100000 in
/-- A text with two sections: the first sub-mesh gets the face of the first
section, the second the two faces of the second, three faces in all. -/
theorem parseObj_faces_witness :
    parseObj exampleFloats twoSectionsObj [] = Result.ok twoSectionsMesh ∧
    twoSectionsMesh.SubMeshes.map (fun sm => sm.Faces) =
      [[newFaceV ⟨0, 1, 2⟩], [newFaceVT ⟨3, 4, 5⟩ ⟨0, 1, 2⟩, newFaceV ⟨6, 7, 8⟩]] ∧
    (twoSectionsMesh.SubMeshes.map (fun sm => sm.Faces.length)).sum = 3 :=
  ⟨by decide,
    (parseObj_faces exampleFloats [] twoSectionsObj twoSectionsMesh (by decide)).1.trans
      (by decide),
    (parseObj_faces exampleFloats [] twoSectionsObj twoSectionsMesh (by decide)).2.2.trans
      (by decide)⟩

/-! ## Faces of mixed shapes -/

/-- C20, amended: acceptance of three tokens does not depend on their shapes
agreeing, and the shape of the returned face is decided by the third token
alone.  The texture array is all zeros unless the third token has a non-empty
texture segment; in that case `t[i]` is `0` for each token without a texture
segment and, for each token with one, its texture value minus 1 modulo `2^32`,
hence the texture value minus 1 when that value is at least 1.  The same holds
for the normal array. -/
theorem parseFace_mixed_shapes (s0 s1 s2 : GoString) :
    ((¬ malformedToken s0 ∧ ¬ malformedToken s1 ∧ ¬ malformedToken s2) →
      ∃ f, parseFace [s0, s1, s2] = Result.ok f) ∧
    ∀ f, parseFace [s0, s1, s2] = Result.ok f →
      (textureSegment s2 = [] → f.t = Arr3.zero) ∧
      (normalSegment s2 = [] → f.n = Arr3.zero) ∧
      ∀ (i : Nat) (tok : GoString), [s0, s1, s2][i]? = some tok →
        (textureSegment s2 ≠ [] →
          (textureSegment tok = [] → f.t.get i = 0) ∧
          (∀ z : Int, ParseInt (textureSegment tok) 32 = (z, none) →
            ((f.t.get i : Nat) : Int) = (z - 1) % 4294967296 ∧
            (1 ≤ z → ((f.t.get i : Nat) : Int) = z - 1))) ∧
        (normalSegment s2 ≠ [] →
          (normalSegment tok = [] → f.n.get i = 0) ∧
          (∀ z : Int, ParseInt (normalSegment tok) 32 = (z, none) →
            ((f.n.get i : Nat) : Int) = (z - 1) % 4294967296 ∧
            (1 ≤ z → ((f.n.get i : Nat) : Int) = z - 1))) := by
  refine ⟨?_, ?_⟩
  · rintro ⟨h0, h1, h2⟩
    refine parseFace_ok_of_wellformed [s0, s1, s2] rfl ?_
    intro tok hm
    simp only [List.mem_cons, List.mem_singleton, List.not_mem_nil, or_false] at hm
    rcases hm with e0 | e1 | e2
    · rw [e0]; exact h0
    · rw [e1]; exact h1
    · rw [e2]; exact h2
  · intro f h
    obtain ⟨_, st1, hloop, _, ht, hn⟩ := parseFace_ok _ f h
    obtain ⟨_, hslots, hflags⟩ := parseFaceLoop_ok _ _ 0 _ st1 (by simp) hloop
    obtain ⟨hT, hN⟩ := hflags s2 rfl
    refine ⟨?_, ?_, ?_⟩
    · intro e
      have : st1.hasT = false := by rw [hT]; exact decide_eq_false (not_not.2 e)
      rw [ht, this]; rfl
    · intro e
      have : st1.hasN = false := by rw [hN]; exact decide_eq_false (not_not.2 e)
      rw [hn, this]; rfl
    · intro i tok hi
      obtain ⟨_, _, st, st0, sn, sn0⟩ := hslots i tok hi
      rw [Nat.zero_add] at st st0 sn sn0
      have hz : ∀ k, Arr3.zero.get k = 0 := by
        intro k
        rcases k with _ | _ | k <;> rfl
      refine ⟨?_, ?_⟩
      · intro hne2
        have hflag : st1.hasT = true := by rw [hT]; exact decide_eq_true hne2
        rw [ht, hflag, if_pos rfl]
        refine ⟨fun e => by rw [st0 e]; exact hz i, ?_⟩
        intro z hp
        rw [ParseInt_eq_iff] at hp
        have hne : textureSegment tok ≠ [] := by
          intro e; rw [e, decimalInt32_nil] at hp; cases hp
        obtain ⟨zt, hzt, et⟩ := st hne
        rw [hzt, Option.some.injEq] at hp
        subst hp
        rw [et]
        exact ⟨sub32_uint32 zt, fun h1 => sub32_uint32_pos zt h1 (decimalInt32_range _ _ hzt).2⟩
      · intro hne2
        have hflag : st1.hasN = true := by rw [hN]; exact decide_eq_true hne2
        rw [hn, hflag, if_pos rfl]
        refine ⟨fun e => by rw [sn0 e]; exact hz i, ?_⟩
        intro z hp
        rw [ParseInt_eq_iff] at hp
        have hne : normalSegment tok ≠ [] := by
          intro e; rw [e, decimalInt32_nil] at hp; cases hp
        obtain ⟨zn, hzn, en⟩ := sn hne
        rw [hzn, Option.some.injEq] at hp
        subst hp
        rw [en]
        exact ⟨sub32_uint32 zn, fun h1 => sub32_uint32_pos zn h1 (decimalInt32_range _ _ hzn).2⟩

/-- The tokens `1/2 3/4 5` are accepted and give the vertex-only face
`v = (0,2,4)`, `t = (0,0,0)`; the tokens `1 2 3/4` are accepted and give
`v = (0,1,2)`, `t = (0,0,3)`. -/
theorem parseFace_mixed_shapes_witness :
    parseFace ["1/2".toList, "3/4".toList, "5".toList] =
      Result.ok { v := ⟨0, 2, 4⟩, t := ⟨0, 0, 0⟩, n := ⟨0, 0, 0⟩ } ∧
    (⟨0, 0, 0⟩ : Arr3) = Arr3.zero ∧
    parseFace ["1".toList, "2".toList, "3/4".toList] =
      Result.ok { v := ⟨0, 1, 2⟩, t := ⟨0, 0, 3⟩, n := ⟨0, 0, 0⟩ } ∧
    (((⟨0, 0, 3⟩ : Arr3).get 2 : Nat) : Int) = 4 - 1 ∧
    (⟨0, 0, 3⟩ : Arr3).get 0 = 0 :=
  ⟨by decide,
    ((parseFace_mixed_shapes "1/2".toList "3/4".toList "5".toList).2
      { v := ⟨0, 2, 4⟩, t := ⟨0, 0, 0⟩, n := ⟨0, 0, 0⟩ } (by decide)).1 (by decide),
    by decide,
    (((((parseFace_mixed_shapes "1".toList "2".toList "3/4".toList).2
      { v := ⟨0, 1, 2⟩, t := ⟨0, 0, 3⟩, n := ⟨0, 0, 0⟩ } (by decide)).2.2
      2 "3/4".toList (by decide)).1 (by decide)).2 4 (by decide)).2 (by decide),
    ((((parseFace_mixed_shapes "1".toList "2".toList "3/4".toList).2
      { v := ⟨0, 1, 2⟩, t := ⟨0, 0, 3⟩, n := ⟨0, 0, 0⟩ } (by decide)).2.2
      0 "1".toList (by decide)).1 (by decide)).1 (by decide)⟩

/-- C20 as stated fails on the accepted value `0`: the tokens `1 2 3/0` are
accepted, the third token has the texture segment `0`, which the parser accepts
with the value `0`, and `t[2]` is `4294967295`, not `0 - 1`. -/
theorem parseFace_mixed_shapes_counterexample :
    parseFace ["1".toList, "2".toList, "3/0".toList] =
      Result.ok { v := ⟨0, 1, 2⟩, t := ⟨0, 0, 4294967295⟩, n := ⟨0, 0, 0⟩ } ∧
    textureSegment "3/0".toList ≠ [] ∧
    ParseInt (textureSegment "3/0".toList) 32 = (0, none) ∧
    (((⟨0, 0, 4294967295⟩ : Arr3).get 2 : Nat) : Int) ≠ 0 - 1 := by
  decide

/-! ## Splitting and trimming -/

theorem Split_of_not_mem (sep : Char) (s : GoString) (h : sep ∉ s) : Split s sep = [s] := by
  induction s with
  | nil => rfl
  | cons c cs ih =>
    simp only [List.mem_cons, not_or] at h
    have hc : ¬ c = sep := fun e => h.1 e.symm
    rw [Split, if_neg hc, ih h.2]

theorem Split_cons_sep (sep : Char) (cs : GoString) :
    Split (sep :: cs) sep = [] :: Split cs sep := by
  rw [Split, if_pos rfl]

theorem Split_cons_ne (sep c : Char) (cs x : GoString) (xs : List GoString) (hc : ¬ c = sep)
    (hs : Split cs sep = x :: xs) : Split (c :: cs) sep = (c :: x) :: xs := by
  rw [Split, if_neg hc, hs]

theorem Split_append_sep (sep : Char) (a b : GoString) :
    Split (a ++ sep :: b) sep = Split a sep ++ Split b sep := by
  induction a with
  | nil => rw [List.nil_append, Split_cons_sep]; rfl
  | cons c cs ih =>
    by_cases hc : c = sep
    · subst hc
      rw [List.cons_append, Split_cons_sep, ih, Split_cons_sep, List.cons_append]
    · obtain ⟨x, xs, hs⟩ : ∃ x xs, Split cs sep = x :: xs := by
        cases hs : Split cs sep with
        | nil => exact absurd hs (Split_ne_nil _ _)
        | cons x xs => exact ⟨x, xs, rfl⟩
      rw [hs, List.cons_append] at ih
      rw [List.cons_append, Split_cons_ne sep c _ x _ hc ih, Split_cons_ne sep c cs x xs hc hs,
        List.cons_append]

theorem TrimSpace_eq_self (s : GoString) (h1 : ∀ c, s.head? = some c → isSpace c = false)
    (h2 : ∀ c, s.getLast? = some c → isSpace c = false) : TrimSpace s = s := by
  have d1 : s.dropWhile isSpace = s := by
    cases s with
    | nil => rfl
    | cons c cs => simp [List.dropWhile_cons, h1 c rfl]
  have d2 : s.reverse.dropWhile isSpace = s.reverse := by
    cases hr : s.reverse with
    | nil => rfl
    | cons c cs =>
      have : s.getLast? = some c := by
        rw [List.getLast?_eq_head?_reverse, hr]; rfl
      simp [List.dropWhile_cons, h2 c this]
  rw [TrimSpace, d1, d2, List.reverse_reverse]

/-- The body of the loop of `parseObj`, read from the keyword and the arguments
of the line. -/
theorem parseObjLine_eq {F : Type} (fl : Float32Ops F) (M : MaterialMap F) (st : ObjState F)
    (l : GoString) :
    parseObjLine fl M st l =
      if (TrimSpace l).length = 0 then Result.ok st
      else if keyword l = "#".toList then Result.ok st
      else if keyword l = "mtllib".toList then Result.ok st
      else if keyword l = "usemtl".toList then
        (parseMaterialName (lineArgs l)).bind fun materialName =>
          Result.ok
            { mesh := { st.mesh with SubMeshes := st.mesh.SubMeshes ++
                [⟨materialName, M.lookup materialName, []⟩] },
              subMesh := some st.mesh.SubMeshes.length }
      else if keyword l = "o".toList then
        (parseObjectName (lineArgs l)).bind fun objectName =>
          Result.ok { st with mesh := { st.mesh with name := objectName } }
      else if keyword l = "s".toList then Result.ok st
      else if keyword l = "v".toList then
        (parseVertex fl (lineArgs l)).bind fun v =>
          Result.ok { st with mesh := { st.mesh with Verts := st.mesh.Verts ++ [v] } }
      else if keyword l = "vn".toList then
        (parseVertex fl (lineArgs l)).bind fun v =>
          Result.ok { st with mesh := { st.mesh with Normals := st.mesh.Normals ++ [v] } }
      else if keyword l = "f".toList then
        (parseFace (lineArgs l)).bind fun f => appendFace st f
      else Result.error (unknownDefinition (TrimSpace l) (lineTokens l)) := by
  by_cases hl : (TrimSpace l).length = 0
  · simp only [parseObjLine, if_pos hl]
  · obtain ⟨kw, args, hs⟩ : ∃ kw args, Split (TrimSpace l) ' ' = kw :: args := by
      cases hs : Split (TrimSpace l) ' ' with
      | nil => exact absurd hs (Split_ne_nil _ _)
      | cons kw args => exact ⟨kw, args, rfl⟩
    have hT : lineTokens l = kw :: args := hs
    have hK : keyword l = kw := by simp only [keyword, hT, List.headD_cons]
    have hA : lineArgs l = args := by simp only [lineArgs, hT, List.tail_cons]
    rw [hK, hA, hT, if_neg hl]
    simp only [parseObjLine, if_neg hl, hs, List.length_cons, Nat.add_one_ne_zero, if_false]

/-- An error on a line reached without error is the error of `parseObj`. -/
theorem parseObj_error_of_line {F : Type} (fl : Float32Ops F) (M : MaterialMap F)
    (objStr : GoString) (pre post : List GoString) (l : GoString) (st : ObjState F)
    (e : GoString) (hsplit : Split objStr '\n' = pre ++ l :: post)
    (hpre : parseObjLines fl M pre (initialState M) = Result.ok st)
    (hline : parseObjLine fl M st l = Result.error e) :
    parseObj fl objStr M = Result.error e := by
  rw [parseObj, hsplit, parseObjLines_append, hpre]
  simp only [Result.bind, parseObjLines, hline]

/-! ## `parseVertex` -/

/-- A wrong number of tokens, or a token that does not parse, makes `parseVertex`
return an error. -/
theorem parseVertex_error {F : Type} (fl : Float32Ops F) (args : List GoString)
    (h : args.length ≠ 3 ∨ ∃ a ∈ args, fl.parse a = none) :
    ∃ e, parseVertex fl args = Result.error e := by
  by_cases hlen : args.length ≠ 3
  · rw [parseVertex, if_pos hlen]
    exact ⟨_, rfl⟩
  · rcases h with h | ⟨a, ha, hp⟩
    · exact absurd h hlen
    · rw [parseVertex, if_neg hlen]
      obtain ⟨a0, a1, a2, hargs⟩ := List.length_eq_three.1 (not_not.1 hlen)
      subst hargs
      simp only [List.mem_cons, List.mem_singleton, List.not_mem_nil, or_false] at ha
      cases h0 : fl.parse a0 with
      | none => simp only [parseVertexLoop, h0]; exact ⟨_, rfl⟩
      | some f0 =>
        cases h1 : fl.parse a1 with
        | none =>
          simp only [parseVertexLoop, h0, h1, Vec3.set, orPanic, Result.bind]
          exact ⟨_, rfl⟩
        | some f1 =>
          cases h2 : fl.parse a2 with
          | none =>
            simp only [parseVertexLoop, h0, h1, h2, Vec3.set, orPanic, Result.bind]
            exact ⟨_, rfl⟩
          | some f2 =>
            rcases ha with e | e | e
            · rw [e, h0] at hp; cases hp
            · rw [e, h1] at hp; cases hp
            · rw [e, h2] at hp; cases hp

/-- C12: `parseVertex` returns an error when the number of tokens is not 3 or
when some token does not parse as a 32-bit float; on three tokens that parse it
returns the vertex of their three values, in the order given. -/
theorem parseVertex_spec {F : Type} (fl : Float32Ops F) (args : List GoString) :
    ((args.length ≠ 3 ∨ ∃ a ∈ args, fl.parse a = none) →
      ∃ e, parseVertex fl args = Result.error e) ∧
    (∀ a0 a1 a2 f0 f1 f2, args = [a0, a1, a2] → fl.parse a0 = some f0 →
      fl.parse a1 = some f1 → fl.parse a2 = some f2 →
      parseVertex fl args = Result.ok ⟨f0, f1, f2⟩) := by
  refine ⟨parseVertex_error fl args, ?_⟩
  · intro a0 a1 a2 f0 f1 f2 e h0 h1 h2
    subst e
    simp [parseVertex, parseVertexLoop, h0, h1, h2, Vec3.set, orPanic, Result.bind]

/-- The token lists `[""]` and `["1.000000 -1.000000"]` fail; the tokens of
`1.000000 -1.000000 -1.000000` give the vertex of the three values. -/
theorem parseVertex_spec_witness :
    (parseVertex exampleFloats [[]]).isError = true ∧
    (parseVertex exampleFloats ["1.000000 -1.000000".toList]).isError = true ∧
    parseVertex exampleFloats (Split "1.000000 -1.000000 -1.000000".toList ' ') =
      Result.ok ⟨"1.000000".toList, "-1.000000".toList, "-1.000000".toList⟩ :=
  ⟨((parseVertex_spec exampleFloats [[]]).1 (Or.inl (by decide))).elim
      fun e he => by rw [he]; rfl,
    ((parseVertex_spec exampleFloats ["1.000000 -1.000000".toList]).1
      (Or.inl (by decide))).elim fun e he => by rw [he]; rfl,
    (parseVertex_spec exampleFloats (Split "1.000000 -1.000000 -1.000000".toList ' ')).2
      "1.000000".toList "-1.000000".toList "-1.000000".toList
      "1.000000".toList "-1.000000".toList "-1.000000".toList
      (by decide) (by decide) (by decide) (by decide)⟩

/-! ## Names -/

/-- C19: `parseMaterialName` and `parseObjectName` return `args[0]` and no error
when `args` has exactly one element, and the empty string with an error when it
has none or more than one; so a `usemtl` or `o` line whose arguments are not
exactly one name, reached without error, makes `parseObj` return an error. -/
theorem parseName_spec {F : Type} (fl : Float32Ops F) (M : MaterialMap F) (objStr : GoString)
    (pre post : List GoString) (l : GoString) (st : ObjState F) (args : List GoString) :
    (∀ a, args = [a] →
      parseMaterialNameGo args = (a, none) ∧ parseObjectNameGo args = (a, none)) ∧
    (args.length ≠ 1 →
      parseMaterialNameGo args = ([], some "Expected only one argument".toList) ∧
      parseObjectNameGo args = ([], some "Expected only one argument".toList)) ∧
    parseMaterialName args = Result.ofPair (parseMaterialNameGo args) ∧
    parseObjectName args = Result.ofPair (parseObjectNameGo args) ∧
    (Split objStr '\n' = pre ++ l :: post →
      parseObjLines fl M pre (initialState M) = Result.ok st →
      (keyword l = "usemtl".toList ∨ keyword l = "o".toList) →
      lineArgs l = args → args.length ≠ 1 →
      parseObj fl objStr M = Result.error "Expected only one argument".toList) := by
  have hM : ∀ xs : List GoString, xs.length ≠ 1 →
      parseMaterialName xs = Result.error "Expected only one argument".toList := by
    intro xs hx
    match xs, hx with
    | [], _ => rfl
    | [_], hx => exact absurd rfl hx
    | _ :: _ :: _, _ => rfl
  have hO : ∀ xs : List GoString, xs.length ≠ 1 →
      parseObjectName xs = Result.error "Expected only one argument".toList := by
    intro xs hx
    match xs, hx with
    | [], _ => rfl
    | [_], hx => exact absurd rfl hx
    | _ :: _ :: _, _ => rfl
  refine ⟨?_, ?_, ?_, ?_, ?_⟩
  · intro a e
    subst e
    exact ⟨rfl, rfl⟩
  · intro h
    simp only [parseMaterialNameGo, parseObjectNameGo, if_pos h, and_self]
  · by_cases h : args.length ≠ 1
    · rw [hM args h, parseMaterialNameGo, if_pos h]; rfl
    · obtain ⟨a, rfl⟩ := List.length_eq_one.1 (not_not.1 h)
      rfl
  · by_cases h : args.length ≠ 1
    · rw [hO args h, parseObjectNameGo, if_pos h]; rfl
    · obtain ⟨a, rfl⟩ := List.length_eq_one.1 (not_not.1 h)
      rfl
  · intro hsplit hpre hkw hargs hlen
    refine parseObj_error_of_line fl M objStr pre post l st _ hsplit hpre ?_
    have hl : ¬ (TrimSpace l).length = 0 := by
      intro e
      have e1 : TrimSpace l = [] := List.length_eq_zero.1 e
      have : keyword l = [] := by simp only [keyword, lineTokens, e1]; rfl
      rcases hkw with h | h <;> (rw [this] at h; revert h; decide)
    rw [parseObjLine_eq, if_neg hl]
    rcases hkw with h | h
    · have k1 : ¬ keyword l = "#".toList := by rw [h]; decide
      have k2 : ¬ keyword l = "mtllib".toList := by rw [h]; decide
      rw [if_neg k1, if_neg k2, if_pos h, hargs, hM args hlen]
      rfl
    · have k1 : ¬ keyword l = "#".toList := by rw [h]; decide
      have k2 : ¬ keyword l = "mtllib".toList := by rw [h]; decide
      have k3 : ¬ keyword l = "usemtl".toList := by rw [h]; decide
      rw [if_neg k1, if_neg k2, if_neg k3, if_pos h, hargs, hO args hlen]
      rfl

/-- The list `[]` fails, `["foo"]` gives `foo`, and the texts `usemtl` and
`o my name` are rejected. -/
theorem parseName_spec_witness :
    parseMaterialNameGo [] = ([], some "Expected only one argument".toList) ∧
    parseObjectNameGo [] = ([], some "Expected only one argument".toList) ∧
    parseMaterialNameGo ["foo".toList] = ("foo".toList, none) ∧
    parseObjectNameGo ["foo".toList] = ("foo".toList, none) ∧
    parseObj exampleFloats "usemtl".toList [] =
      Result.error "Expected only one argument".toList ∧
    parseObj exampleFloats "o my name".toList [] =
      Result.error "Expected only one argument".toList :=
  ⟨((parseName_spec exampleFloats [] [] [] [] [] (initialState []) []).2.1 (by decide)).1,
    ((parseName_spec exampleFloats [] [] [] [] [] (initialState []) []).2.1 (by decide)).2,
    ((parseName_spec exampleFloats [] [] [] [] [] (initialState []) ["foo".toList]).1
      "foo".toList rfl).1,
    ((parseName_spec exampleFloats [] [] [] [] [] (initialState []) ["foo".toList]).1
      "foo".toList rfl).2,
    (parseName_spec exampleFloats [] "usemtl".toList [] [] "usemtl".toList (initialState [])
      []).2.2.2.2 (by decide) rfl (Or.inl (by decide)) (by decide) (by decide),
    (parseName_spec exampleFloats [] "o my name".toList [] [] "o my name".toList
      (initialState []) ["my".toList, "name".toList]).2.2.2.2 (by decide) rfl
      (Or.inr (by decide)) (by decide) (by decide)⟩

/-! ## Vertices and normals -/

theorem appendFace_verts {F : Type} (st st1 : ObjState F) (f : Face)
    (h : appendFace st f = Result.ok st1) :
    st1.mesh.Verts = st.mesh.Verts ∧ st1.mesh.Normals = st.mesh.Normals := by
  simp only [appendFace] at h
  cases hs : st.subMesh with
  | none => rw [hs] at h; cases h
  | some i =>
    rw [hs] at h
    cases hg : st.mesh.SubMeshes[i]? with
    | none => simp only [hg] at h; cases h
    | some sm =>
      simp only [hg, Result.ok.injEq] at h
      subst h
      exact ⟨rfl, rfl⟩

theorem vertexOfLine_of_ok {F : Type} (fl : Float32Ops F) (l : GoString) (v : Vertex F)
    (h : parseVertex fl (lineArgs l) = Result.ok v) : vertexOfLine fl l = some v := by
  simp only [vertexOfLine, h]

/-- What one accepted line does to the vertices and the normals: a `v` line
adds its vertex to `Verts`, a `vn` line adds its vertex to `Normals`, and
nothing else changes them. -/
theorem parseObjLine_verts {F : Type} (fl : Float32Ops F) (M : MaterialMap F)
    (st st1 : ObjState F) (l : GoString) (h : parseObjLine fl M st l = Result.ok st1) :
    st1.mesh.Verts.map some =
        st.mesh.Verts.map some ++ ([l].filter isVertexLine).map (vertexOfLine fl) ∧
      st1.mesh.Normals.map some =
        st.mesh.Normals.map some ++ ([l].filter isNormalLine).map (vertexOfLine fl) := by
  have same : ∀ k : GoString, keyword l = k → ¬ k = "v".toList → ¬ k = "vn".toList →
      st1.mesh.Verts = st.mesh.Verts → st1.mesh.Normals = st.mesh.Normals →
      st1.mesh.Verts.map some =
        st.mesh.Verts.map some ++ ([l].filter isVertexLine).map (vertexOfLine fl) ∧
      st1.mesh.Normals.map some =
        st.mesh.Normals.map some ++ ([l].filter isNormalLine).map (vertexOfLine fl) := by
    intro k hk h1 h2 e1 e2
    have v1 : isVertexLine l = false := by
      simp only [isVertexLine, hk]; exact decide_eq_false h1
    have v2 : isNormalLine l = false := by
      simp only [isNormalLine, hk]; exact decide_eq_false h2
    simp [List.filter_cons, v1, v2, e1, e2]
  rw [parseObjLine_eq] at h
  by_cases hl : (TrimSpace l).length = 0
  · rw [if_pos hl, Result.ok.injEq] at h
    subst h
    have e1 : TrimSpace l = [] := List.length_eq_zero.1 hl
    have hk : keyword l = [] := by simp only [keyword, lineTokens, e1]; rfl
    exact same [] hk (by decide) (by decide) rfl rfl
  rw [if_neg hl] at h
  by_cases k1 : keyword l = "#".toList
  · rw [if_pos k1, Result.ok.injEq] at h
    subst h
    exact same _ k1 (by decide) (by decide) rfl rfl
  rw [if_neg k1] at h
  by_cases k2 : keyword l = "mtllib".toList
  · rw [if_pos k2, Result.ok.injEq] at h
    subst h
    exact same _ k2 (by decide) (by decide) rfl rfl
  rw [if_neg k2] at h
  by_cases k3 : keyword l = "usemtl".toList
  · rw [if_pos k3] at h
    cases hp : parseMaterialName (lineArgs l) with
    | error e => rw [hp] at h; cases h
    | panic => rw [hp] at h; cases h
    | ok nm =>
      rw [hp] at h
      simp only [Result.bind, Result.ok.injEq] at h
      subst h
      exact same _ k3 (by decide) (by decide) rfl rfl
  rw [if_neg k3] at h
  by_cases k4 : keyword l = "o".toList
  · rw [if_pos k4] at h
    cases hp : parseObjectName (lineArgs l) with
    | error e => rw [hp] at h; cases h
    | panic => rw [hp] at h; cases h
    | ok nm =>
      rw [hp] at h
      simp only [Result.bind, Result.ok.injEq] at h
      subst h
      exact same _ k4 (by decide) (by decide) rfl rfl
  rw [if_neg k4] at h
  by_cases k5 : keyword l = "s".toList
  · rw [if_pos k5, Result.ok.injEq] at h
    subst h
    exact same _ k5 (by decide) (by decide) rfl rfl
  rw [if_neg k5] at h
  by_cases k6 : keyword l = "v".toList
  · rw [if_pos k6] at h
    cases hp : parseVertex fl (lineArgs l) with
    | error e => rw [hp] at h; cases h
    | panic => rw [hp] at h; cases h
    | ok v =>
      rw [hp] at h
      simp only [Result.bind, Result.ok.injEq] at h
      subst h
      have v1 : isVertexLine l = true := by
        simp only [isVertexLine, k6]; decide
      have v2 : isNormalLine l = false := by
        simp only [isNormalLine, k6]; decide
      simp [List.filter_cons, v1, v2, vertexOfLine_of_ok fl l v hp]
  rw [if_neg k6] at h
  by_cases k7 : keyword l = "vn".toList
  · rw [if_pos k7] at h
    cases hp : parseVertex fl (lineArgs l) with
    | error e => rw [hp] at h; cases h
    | panic => rw [hp] at h; cases h
    | ok v =>
      rw [hp] at h
      simp only [Result.bind, Result.ok.injEq] at h
      subst h
      have v1 : isVertexLine l = false := by
        simp only [isVertexLine, k7]; decide
      have v2 : isNormalLine l = true := by
        simp only [isNormalLine, k7]; decide
      simp [List.filter_cons, v1, v2, vertexOfLine_of_ok fl l v hp]
  rw [if_neg k7] at h
  by_cases k8 : keyword l = "f".toList
  · rw [if_pos k8] at h
    cases hp : parseFace (lineArgs l) with
    | error e => rw [hp] at h; cases h
    | panic => rw [hp] at h; cases h
    | ok f =>
      rw [hp] at h
      simp only [Result.bind] at h
      obtain ⟨e1, e2⟩ := appendFace_verts st st1 f h
      exact same _ k8 (by decide) (by decide) e1 e2
  · rw [if_neg k8] at h
    cases h

theorem parseObjLines_verts {F : Type} (fl : Float32Ops F) (M : MaterialMap F) :
    ∀ (lines : List GoString) (st st1 : ObjState F),
      parseObjLines fl M lines st = Result.ok st1 →
      st1.mesh.Verts.map some =
          st.mesh.Verts.map some ++ (lines.filter isVertexLine).map (vertexOfLine fl) ∧
        st1.mesh.Normals.map some =
          st.mesh.Normals.map some ++ (lines.filter isNormalLine).map (vertexOfLine fl) := by
  intro lines
  induction lines with
  | nil =>
    intro st st1 h
    simp only [parseObjLines, Result.ok.injEq] at h
    subst h
    simp
  | cons l ls ih =>
    intro st st1 h
    simp only [parseObjLines] at h
    cases hstep : parseObjLine fl M st l with
    | error e => rw [hstep] at h; cases h
    | panic => rw [hstep] at h; cases h
    | ok st2 =>
      rw [hstep] at h
      simp only [Result.bind] at h
      obtain ⟨a1, a2⟩ := parseObjLine_verts fl M st st2 l hstep
      obtain ⟨b1, b2⟩ := ih st2 st1 h
      rw [b1, a1, b2, a2]
      have f1 : (l :: ls).filter isVertexLine = [l].filter isVertexLine ++ ls.filter isVertexLine := by
        rw [← List.filter_append]; rfl
      have f2 : (l :: ls).filter isNormalLine = [l].filter isNormalLine ++ ls.filter isNormalLine := by
        rw [← List.filter_append]; rfl
      rw [f1, f2, List.map_append, List.map_append, List.append_assoc, List.append_assoc]
      exact ⟨rfl, rfl⟩

/-- C11: in the mesh that `parseObj` returns, `Verts` holds, in order, the vertex
that `parseVertex` returns for each `v` line, one entry per line, and `Normals`
the same for the `vn` lines; no other line adds to either. -/
theorem parseObj_verts {F : Type} (fl : Float32Ops F) (M : MaterialMap F)
    (objStr : GoString) (mesh : ObjMesh F) (h : parseObj fl objStr M = Result.ok mesh) :
    mesh.Verts.map some =
        ((Split objStr '\n').filter isVertexLine).map (vertexOfLine fl) ∧
      mesh.Normals.map some =
        ((Split objStr '\n').filter isNormalLine).map (vertexOfLine fl) ∧
      mesh.Verts.length = ((Split objStr '\n').filter isVertexLine).length ∧
      mesh.Normals.length = ((Split objStr '\n').filter isNormalLine).length := by
  obtain ⟨st1, hrun, hm⟩ := parseObj_ok fl M objStr mesh h
  obtain ⟨r1, r2⟩ := parseObjLines_verts fl M _ _ st1 hrun
  simp only [initialState, List.map_nil, List.nil_append] at r1 r2
  rw [hm] at r1 r2
  refine ⟨r1, r2, ?_, ?_⟩
  · have := congrArg List.length r1
    simpa using this
  · have := congrArg List.length r2
    simpa using this

set_option maxRecDepth 100000 in
/-- The cube text, with 8 `v` lines, one `usemtl` line and 12 `f` lines, parses to
a mesh with 8 vertices, no normal, one sub-mesh and 12 faces, every face
vertex index being at most 7. -/
theorem parseObj_verts_witness :
    parseObj exampleFloats cubeObj [] = Result.ok cubeMesh ∧
    ((Split cubeObj '\n').filter isVertexLine).length = 8 ∧
    cubeMesh.Verts.length = 8 ∧
    cubeMesh.Normals.length = 0 ∧
    cubeMesh.SubMeshes.length = 1 ∧
    cubeMesh.SubMeshes.map (fun sm => sm.Faces.length) = [12] ∧
    (cubeMesh.SubMeshes.all fun sm => sm.Faces.all fun f =>
      decide (f.v.e0 ≤ 7) && decide (f.v.e1 ≤ 7) && decide (f.v.e2 ≤ 7)) = true :=
  ⟨by decide, by decide,
    (parseObj_verts exampleFloats [] cubeObj cubeMesh (by decide)).2.2.1.trans (by decide),
    (parseObj_verts exampleFloats [] cubeObj cubeMesh (by decide)).2.2.2.trans (by decide),
    by decide, by decide, by decide⟩

/-! ## Consecutive spaces -/

theorem parseMaterialName_error (xs : List GoString) (hx : xs.length ≠ 1) :
    parseMaterialName xs = Result.error "Expected only one argument".toList := by
  match xs, hx with
  | [], _ => rfl
  | [_], hx => exact absurd rfl hx
  | _ :: _ :: _, _ => rfl

theorem parseObjectName_error (xs : List GoString) (hx : xs.length ≠ 1) :
    parseObjectName xs = Result.error "Expected only one argument".toList := by
  match xs, hx with
  | [], _ => rfl
  | [_], hx => exact absurd rfl hx
  | _ :: _ :: _, _ => rfl

/-- Two consecutive spaces in the trimmed line leave an empty token among the
arguments, which are then at least two. -/
theorem lineArgs_of_consecutive_spaces (l a b : GoString)
    (hsp : TrimSpace l = a ++ ' ' :: ' ' :: b) :
    [] ∈ lineArgs l ∧ 2 ≤ (lineArgs l).length := by
  have hT : lineTokens l = Split a ' ' ++ [] :: Split b ' ' := by
    rw [lineTokens, hsp, Split_append_sep, Split_cons_sep]
  obtain ⟨kw, r, hs⟩ : ∃ kw r, Split a ' ' = kw :: r := by
    cases hs : Split a ' ' with
    | nil => exact absurd hs (Split_ne_nil _ _)
    | cons kw r => exact ⟨kw, r, rfl⟩
  obtain ⟨x, xs, hb⟩ : ∃ x xs, Split b ' ' = x :: xs := by
    cases hs : Split b ' ' with
    | nil => exact absurd hs (Split_ne_nil _ _)
    | cons x xs => exact ⟨x, xs, rfl⟩
  rw [lineArgs, hT, hs, hb]
  simp only [List.cons_append, List.tail_cons, List.mem_append, List.mem_cons, true_or, or_true,
    List.length_append, List.length_cons, true_and]
  omega

/-- C17: when every earlier line is accepted, a `v`, `vn`, `f`, `usemtl` or `o`
line whose trimmed text has two consecutive spaces makes `parseObj` return an
error, `strconv.ParseFloat` rejecting the empty string. -/
theorem parseObj_consecutive_spaces {F : Type} (fl : Float32Ops F) (M : MaterialMap F)
    (objStr : GoString) (pre post : List GoString) (l a b : GoString) (st : ObjState F)
    (hempty : fl.parse [] = none)
    (hsplit : Split objStr '\n' = pre ++ l :: post)
    (hpre : parseObjLines fl M pre (initialState M) = Result.ok st)
    (hkw : keyword l = "v".toList ∨ keyword l = "vn".toList ∨ keyword l = "f".toList ∨
      keyword l = "usemtl".toList ∨ keyword l = "o".toList)
    (hsp : TrimSpace l = a ++ ' ' :: ' ' :: b) :
    ∃ e, parseObj fl objStr M = Result.error e := by
  obtain ⟨hmem, hlen⟩ := lineArgs_of_consecutive_spaces l a b hsp
  have hl : ¬ (TrimSpace l).length = 0 := by
    rw [hsp]; simp
  have hstep : ∃ e, parseObjLine fl M st l = Result.error e := by
    rw [parseObjLine_eq, if_neg hl]
    rcases hkw with h | h | h | h | h
    · have k1 : ¬ keyword l = "#".toList := by rw [h]; decide
      have k2 : ¬ keyword l = "mtllib".toList := by rw [h]; decide
      have k3 : ¬ keyword l = "usemtl".toList := by rw [h]; decide
      have k4 : ¬ keyword l = "o".toList := by rw [h]; decide
      have k5 : ¬ keyword l = "s".toList := by rw [h]; decide
      obtain ⟨e, he⟩ := parseVertex_error fl (lineArgs l) (Or.inr ⟨[], hmem, hempty⟩)
      rw [if_neg k1, if_neg k2, if_neg k3, if_neg k4, if_neg k5, if_pos h, he]
      exact ⟨e, rfl⟩
    · have k1 : ¬ keyword l = "#".toList := by rw [h]; decide
      have k2 : ¬ keyword l = "mtllib".toList := by rw [h]; decide
      have k3 : ¬ keyword l = "usemtl".toList := by rw [h]; decide
      have k4 : ¬ keyword l = "o".toList := by rw [h]; decide
      have k5 : ¬ keyword l = "s".toList := by rw [h]; decide
      have k6 : ¬ keyword l = "v".toList := by rw [h]; decide
      obtain ⟨e, he⟩ := parseVertex_error fl (lineArgs l) (Or.inr ⟨[], hmem, hempty⟩)
      rw [if_neg k1, if_neg k2, if_neg k3, if_neg k4, if_neg k5, if_neg k6, if_pos h, he]
      exact ⟨e, rfl⟩
    · have k1 : ¬ keyword l = "#".toList := by rw [h]; decide
      have k2 : ¬ keyword l = "mtllib".toList := by rw [h]; decide
      have k3 : ¬ keyword l = "usemtl".toList := by rw [h]; decide
      have k4 : ¬ keyword l = "o".toList := by rw [h]; decide
      have k5 : ¬ keyword l = "s".toList := by rw [h]; decide
      have k6 : ¬ keyword l = "v".toList := by rw [h]; decide
      have k7 : ¬ keyword l = "vn".toList := by rw [h]; decide
      have hbad : malformedToken [] := Or.inl rfl
      obtain ⟨e, he⟩ := parseFace_error_of_malformed (lineArgs l) [] hmem hbad
      rw [if_neg k1, if_neg k2, if_neg k3, if_neg k4, if_neg k5, if_neg k6, if_neg k7,
        if_pos h, he]
      exact ⟨e, rfl⟩
    · have k1 : ¬ keyword l = "#".toList := by rw [h]; decide
      have k2 : ¬ keyword l = "mtllib".toList := by rw [h]; decide
      rw [if_neg k1, if_neg k2, if_pos h, parseMaterialName_error _ (by omega)]
      exact ⟨_, rfl⟩
    · have k1 : ¬ keyword l = "#".toList := by rw [h]; decide
      have k2 : ¬ keyword l = "mtllib".toList := by rw [h]; decide
      have k3 : ¬ keyword l = "usemtl".toList := by rw [h]; decide
      rw [if_neg k1, if_neg k2, if_neg k3, if_pos h, parseObjectName_error _ (by omega)]
      exact ⟨_, rfl⟩
  obtain ⟨e, he⟩ := hstep
  exact ⟨e, parseObj_error_of_line fl M objStr pre post l st e hsplit hpre he⟩

/-- The lines `v 1.0  2.0 3.0`, `f 1  2 3` and `usemtl  Material` are rejected. -/
theorem parseObj_consecutive_spaces_witness :
    (parseObj exampleFloats "v 1.0  2.0 3.0".toList []).isError = true ∧
    (parseObj exampleFloats "f 1  2 3".toList []).isError = true ∧
    (parseObj exampleFloats "usemtl  Material".toList []).isError = true :=
  ⟨(parseObj_consecutive_spaces exampleFloats [] "v 1.0  2.0 3.0".toList [] []
      "v 1.0  2.0 3.0".toList "v 1.0".toList "2.0 3.0".toList (initialState [])
      (by decide) (by decide) rfl (Or.inl (by decide)) (by decide)).elim
      fun e he => by rw [he]; rfl,
    (parseObj_consecutive_spaces exampleFloats [] "f 1  2 3".toList [] []
      "f 1  2 3".toList "f 1".toList "2 3".toList (initialState [])
      (by decide) (by decide) rfl (Or.inr (Or.inr (Or.inl (by decide)))) (by decide)).elim
      fun e he => by rw [he]; rfl,
    (parseObj_consecutive_spaces exampleFloats [] "usemtl  Material".toList [] []
      "usemtl  Material".toList "usemtl".toList "Material".toList (initialState [])
      (by decide) (by decide) rfl (Or.inr (Or.inr (Or.inr (Or.inl (by decide)))))
      (by decide)).elim fun e he => by rw [he]; rfl⟩

/-! ## Comment lines -/

/-- A line whose first token is exactly `#` leaves the state of `parseObj` as it
is. -/
theorem parseObjLine_hash {F : Type} (fl : Float32Ops F) (M : MaterialMap F) (st : ObjState F)
    (l : GoString) (h : keyword l = "#".toList) : parseObjLine fl M st l = Result.ok st := by
  rw [parseObjLine_eq]
  by_cases hl : (TrimSpace l).length = 0
  · rw [if_pos hl]
  · rw [if_neg hl, if_pos h]

/-- Inserting a line whose first token is exactly `#` leaves the outcome of
`parseObj` unchanged. -/
theorem parseObj_hash_line {F : Type} (fl : Float32Ops F) (M : MaterialMap F)
    (s1 s2 : GoString) (pre post : List GoString) (l : GoString)
    (h1 : Split s1 '\n' = pre ++ l :: post) (h2 : Split s2 '\n' = pre ++ post)
    (h : keyword l = "#".toList) : parseObj fl s1 M = parseObj fl s2 M := by
  rw [parseObj, parseObj, h1, h2, parseObjLines_append, parseObjLines_append]
  cases parseObjLines fl M pre (initialState M) with
  | ok st => simp only [Result.bind, parseObjLines, parseObjLine_hash fl M st l h]
  | error e => rfl
  | panic => rfl

/-- C18, at the failing input: the text `o Cube` is accepted, and with the comment
line `#comment` inserted before it `parseObj` returns the unknown-definition
error: a comment whose `#` is not followed by a space is not ignored. -/
theorem parseObj_comment_without_space {F : Type} (fl : Float32Ops F) (M : MaterialMap F) :
    parseObj fl "o Cube".toList M = Result.ok ⟨"Cube".toList, M, [], [], []⟩ ∧
    parseObj fl "#comment\no Cube".toList M =
      Result.error "Unknown obj definition: (#comment), [#comment]".toList :=
  ⟨rfl, rfl⟩

/-! ## The loop of `parseMaterials` -/

theorem parseMaterialsLines_append {F : Type} (fl : Float32Ops F) (pre post : List GoString) :
    ∀ st : MtlState F, parseMaterialsLines fl (pre ++ post) st =
      (parseMaterialsLines fl pre st).bind fun st1 => parseMaterialsLines fl post st1 := by
  induction pre with
  | nil => intro st; rfl
  | cons l ls ih =>
    intro st
    simp only [List.cons_append, parseMaterialsLines]
    cases parseMaterialsLine fl st l with
    | ok st1 => simp only [Result.bind]; exact ih st1
    | error e => rfl
    | panic => rfl

/-- The body of the loop of `parseMaterials`, read from the keyword and the
arguments of the line. -/
theorem parseMaterialsLine_eq {F : Type} (fl : Float32Ops F) (st : MtlState F) (l : GoString) :
    parseMaterialsLine fl st l =
      if (TrimSpace l).length = 0 then Result.ok st
      else if keyword l = "#".toList then Result.ok st
      else if keyword l = "newmtl".toList then newMaterial fl st (lineArgs l)
      else if keyword l = "Kd".toList then
        (parseFloat32Array fl (lineArgs l)).bind fun values =>
          (setDiffuse st 0 values).bind fun st0 =>
            (setDiffuse st0 1 values).bind fun st1 =>
              setDiffuse st1 2 values
      else Result.ok st := by
  by_cases hl : (TrimSpace l).length = 0
  · simp only [parseMaterialsLine, if_pos hl]
  · obtain ⟨kw, args, hs⟩ : ∃ kw args, Split (TrimSpace l) ' ' = kw :: args := by
      cases hs : Split (TrimSpace l) ' ' with
      | nil => exact absurd hs (Split_ne_nil _ _)
      | cons kw args => exact ⟨kw, args, rfl⟩
    have hT : lineTokens l = kw :: args := hs
    have hK : keyword l = kw := by simp only [keyword, hT, List.headD_cons]
    have hA : lineArgs l = args := by simp only [lineArgs, hT, List.tail_cons]
    rw [hK, hA, if_neg hl]
    simp only [parseMaterialsLine, if_neg hl, hs, List.length_cons, Nat.add_one_ne_zero,
      if_false]

/-- A line whose first token is neither `newmtl` nor `Kd` leaves the state of
`parseMaterials` as it is. -/
theorem parseMaterialsLine_other {F : Type} (fl : Float32Ops F) (st : MtlState F)
    (l : GoString) (h1 : keyword l ≠ "newmtl".toList) (h2 : keyword l ≠ "Kd".toList) :
    parseMaterialsLine fl st l = Result.ok st := by
  rw [parseMaterialsLine_eq]
  by_cases hl : (TrimSpace l).length = 0
  · rw [if_pos hl]
  · rw [if_neg hl]
    by_cases k : keyword l = "#".toList
    · rw [if_pos k]
    · rw [if_neg k, if_neg h1, if_neg h2]

/-- C16: a whole line whose first token, after trimming, is neither `newmtl` nor
`Kd` changes nothing: the body of the loop returns the state it received, and
the text with the line and the text without it have the same outcome. -/
theorem parseMaterials_ignores_line {F : Type} (fl : Float32Ops F) (s1 s2 : GoString)
    (pre post : List GoString) (l : GoString)
    (h1 : Split s1 '\n' = pre ++ l :: post)
    (h2 : Split s2 '\n' = pre ++ post ∨ (pre ++ post = [] ∧ s2 = []))
    (hk1 : keyword l ≠ "newmtl".toList) (hk2 : keyword l ≠ "Kd".toList) :
    (∀ st : MtlState F, parseMaterialsLine fl st l = Result.ok st) ∧
    parseMaterials fl s1 = parseMaterials fl s2 := by
  have hstep := fun st : MtlState F => parseMaterialsLine_other fl st l hk1 hk2
  refine ⟨hstep, ?_⟩
  rcases h2 with h2 | ⟨he, hs2⟩
  · rw [parseMaterials, parseMaterials, h1, h2, parseMaterialsLines_append,
      parseMaterialsLines_append]
    cases parseMaterialsLines fl pre initialMtlState with
    | ok st => simp only [Result.bind, parseMaterialsLines, hstep st]
    | error e => rfl
    | panic => rfl
  · obtain ⟨hp, hq⟩ := List.append_eq_nil.1 he
    subst hp hq hs2
    rw [parseMaterials, parseMaterials, h1]
    simp only [List.nil_append, parseMaterialsLines, hstep, Result.bind]
    rfl

set_option maxRecDepth 100000 in
/-- The line `Ns 96.078431` between `newmtl M` and `Kd 0.64 0.64 0.64` changes
nothing, and the library of the test `TestParseObjMaterial`, with its lines
`Ns`, `Ka`, `Ks`, `Ni`, `d` and `illum`, yields the material of its `Kd` line. -/
theorem parseMaterials_ignores_line_witness :
    parseMaterials exampleFloats "newmtl M\nNs 96.078431\nKd 0.64 0.64 0.64".toList =
      parseMaterials exampleFloats "newmtl M\nKd 0.64 0.64 0.64".toList ∧
    parseMaterials exampleFloats "newmtl M\nKd 0.64 0.64 0.64".toList =
      Result.ok [("M".toList, ⟨"M".toList,
        ⟨"0.64".toList, "0.64".toList, "0.64".toList, "0".toList⟩⟩)] ∧
    parseMaterials exampleFloats cubeMtl =
      Result.ok [("Material".toList, ⟨"Material".toList,
        ⟨"0.640000".toList, "0.640000".toList, "0.640000".toList, "0".toList⟩⟩)] :=
  ⟨(parseMaterials_ignores_line exampleFloats
      "newmtl M\nNs 96.078431\nKd 0.64 0.64 0.64".toList "newmtl M\nKd 0.64 0.64 0.64".toList
      ["newmtl M".toList] ["Kd 0.64 0.64 0.64".toList] "Ns 96.078431".toList
      (by decide) (Or.inl (by decide)) (by decide) (by decide)).2,
    by decide, by decide⟩

/-- C14, at the failing input: on the text `Kd 0.64 0.64 0.64`, where a `Kd` line
with three numeric arguments comes before any `newmtl` line, `parseMaterials`
panics on the nil `mat`; it does not return the error that the claim states. -/
theorem parseMaterials_Kd_before_newmtl :
    parseFloat32Array exampleFloats (lineArgs "Kd 0.64 0.64 0.64".toList) =
      Result.ok ["0.64".toList, "0.64".toList, "0.64".toList] ∧
    parseMaterials exampleFloats "Kd 0.64 0.64 0.64".toList = Result.panic ∧
    (parseMaterials exampleFloats "Kd 0.64 0.64 0.64".toList).isError = false := by
  decide

/-- C15, at the failing inputs: after `newmtl M`, the lines `Kd 0.5 0.5` and `Kd`,
whose arguments all parse but are fewer than three, make `parseMaterials` panic
on `values[2]` and `values[0]` out of range; an argument that does not parse,
as in `Kd 0.5 x`, does give the error. -/
theorem parseMaterials_Kd_too_few :
    parseFloat32Array exampleFloats (lineArgs "Kd 0.5 0.5".toList) =
      Result.ok ["0.5".toList, "0.5".toList] ∧
    parseMaterials exampleFloats "newmtl M\nKd 0.5 0.5".toList = Result.panic ∧
    parseMaterials exampleFloats "newmtl M\nKd".toList = Result.panic ∧
    parseMaterials exampleFloats "newmtl M\nKd 0.5 x".toList =
      Result.error "Couldn't parse element 1".toList := by
  decide

/-! ## A material and its diffuse colour -/

theorem isToken_facts (s : GoString) (h : isToken s) :
    ' ' ∉ s ∧ '\n' ∉ s ∧ (∀ c, s.getLast? = some c → isSpace c = false) := by
  obtain ⟨_, hs⟩ := h
  refine ⟨?_, ?_, ?_⟩
  · intro hm
    have := hs _ hm
    revert this; decide
  · intro hm
    have := hs _ hm
    revert this; decide
  · intro c hc
    exact hs c (List.mem_of_getLast?_eq_some hc)

theorem getLast?_append_token (a s : GoString) (h : isToken s) :
    ∀ c, (a ++ s).getLast? = some c → isSpace c = false := by
  intro c hc
  obtain ⟨hne, hs⟩ := h
  have : (a ++ s).getLast? = s.getLast? := by
    rw [List.getLast?_append]
    cases hl : s.getLast? with
    | none =>
      rw [List.getLast?_eq_none_iff] at hl
      exact absurd hl hne
    | some x => rfl
  rw [this] at hc
  exact hs c (List.mem_of_getLast?_eq_some hc)

theorem parseFloat32Array_three {F : Type} (fl : Float32Ops F) (r g b : GoString) (fr fg fb : F)
    (pr : fl.parse r = some fr) (pg : fl.parse g = some fg) (pb : fl.parse b = some fb) :
    parseFloat32Array fl [r, g, b] = Result.ok [fr, fg, fb] := by
  simp [parseFloat32Array, parseFloat32ArrayLoop, pr, pg, pb]

/-- C13: for every name `M` and tokens `r`, `g`, `b` that parse as 32-bit floats,
`parseMaterials` applied to the line `newmtl M` followed by the line `Kd r g b`
returns the mapping with the single key `M`, whose material has the name `M`
and the diffuse colour `[r, g, b, 0]`. -/
theorem parseMaterials_newmtl_Kd {F : Type} (fl : Float32Ops F) (M r g b : GoString)
    (fr fg fb : F) (hM : isToken M) (hr : isToken r) (hg : isToken g) (hb : isToken b)
    (pr : fl.parse r = some fr) (pg : fl.parse g = some fg) (pb : fl.parse b = some fb) :
    parseMaterials fl (("newmtl".toList ++ ' ' :: M) ++
        '\n' :: ("Kd".toList ++ ' ' :: (r ++ ' ' :: (g ++ ' ' :: b)))) =
      Result.ok [(M, ⟨M, ⟨fr, fg, fb, fl.zero⟩⟩)] := by
  obtain ⟨sM, nM, _⟩ := isToken_facts M hM
  obtain ⟨sr, nr, _⟩ := isToken_facts r hr
  obtain ⟨sg, ng, _⟩ := isToken_facts g hg
  obtain ⟨sb, nb, _⟩ := isToken_facts b hb
  have n1 : '\n' ∉ "newmtl".toList ++ ' ' :: M := by
    intro h
    rcases List.mem_append.1 h with h | h
    · revert h; decide
    · rcases List.mem_cons.1 h with h | h
      · revert h; decide
      · exact nM h
  have n2 : '\n' ∉ "Kd".toList ++ ' ' :: (r ++ ' ' :: (g ++ ' ' :: b)) := by
    intro h
    rcases List.mem_append.1 h with h | h
    · revert h; decide
    · rcases List.mem_cons.1 h with h | h
      · revert h; decide
      · rcases List.mem_append.1 h with h | h
        · exact nr h
        · rcases List.mem_cons.1 h with h | h
          · revert h; decide
          · rcases List.mem_append.1 h with h | h
            · exact ng h
            · rcases List.mem_cons.1 h with h | h
              · revert h; decide
              · exact nb h
  have hlines : Split (("newmtl".toList ++ ' ' :: M) ++
      '\n' :: ("Kd".toList ++ ' ' :: (r ++ ' ' :: (g ++ ' ' :: b)))) '\n' =
      ["newmtl".toList ++ ' ' :: M, "Kd".toList ++ ' ' :: (r ++ ' ' :: (g ++ ' ' :: b))] := by
    rw [Split_append_sep, Split_of_not_mem _ _ n1, Split_of_not_mem _ _ n2]
    rfl
  have t1 : TrimSpace ("newmtl".toList ++ ' ' :: M) = "newmtl".toList ++ ' ' :: M := by
    apply TrimSpace_eq_self
    · intro c hc
      have : c = 'n' := by
        have e : ("newmtl".toList ++ ' ' :: M).head? = some 'n' := rfl
        rw [e] at hc
        exact (Option.some.inj hc).symm
      rw [this]; decide
    · have e : "newmtl".toList ++ ' ' :: M = ("newmtl".toList ++ [' ']) ++ M := by simp
      rw [e]
      exact getLast?_append_token _ M hM
  have t2 : TrimSpace ("Kd".toList ++ ' ' :: (r ++ ' ' :: (g ++ ' ' :: b))) =
      "Kd".toList ++ ' ' :: (r ++ ' ' :: (g ++ ' ' :: b)) := by
    apply TrimSpace_eq_self
    · intro c hc
      have : c = 'K' := by
        have e : ("Kd".toList ++ ' ' :: (r ++ ' ' :: (g ++ ' ' :: b))).head? = some 'K' := rfl
        rw [e] at hc
        exact (Option.some.inj hc).symm
      rw [this]; decide
    · have e : "Kd".toList ++ ' ' :: (r ++ ' ' :: (g ++ ' ' :: b)) =
          ("Kd".toList ++ ' ' :: (r ++ ' ' :: (g ++ [' ']))) ++ b := by simp
      rw [e]
      exact getLast?_append_token _ b hb
  have k1 : lineTokens ("newmtl".toList ++ ' ' :: M) = ["newmtl".toList, M] := by
    rw [lineTokens, t1, Split_append_sep, Split_of_not_mem _ _ (by decide),
      Split_of_not_mem _ _ sM]
    rfl
  have k2 : lineTokens ("Kd".toList ++ ' ' :: (r ++ ' ' :: (g ++ ' ' :: b))) =
      ["Kd".toList, r, g, b] := by
    rw [lineTokens, t2, Split_append_sep, Split_append_sep, Split_append_sep,
      Split_of_not_mem _ _ (by decide), Split_of_not_mem _ _ sr, Split_of_not_mem _ _ sg,
      Split_of_not_mem _ _ sb]
    rfl
  have l1 : ¬ (TrimSpace ("newmtl".toList ++ ' ' :: M)).length = 0 := by
    rw [t1]; simp
  have l2 : ¬ (TrimSpace ("Kd".toList ++ ' ' :: (r ++ ' ' :: (g ++ ' ' :: b)))).length = 0 := by
    rw [t2]; simp
  have step1 : parseMaterialsLine fl initialMtlState ("newmtl".toList ++ ' ' :: M) =
      Result.ok ⟨[⟨M, ⟨fl.zero, fl.zero, fl.zero, fl.zero⟩⟩], [(M, 0)], some 0⟩ := by
    rw [parseMaterialsLine_eq, if_neg l1]
    have hk : keyword ("newmtl".toList ++ ' ' :: M) = "newmtl".toList := by
      rw [keyword, k1]; rfl
    have ha : lineArgs ("newmtl".toList ++ ' ' :: M) = [M] := by
      rw [lineArgs, k1]; rfl
    rw [hk, ha, if_neg (by decide), if_pos rfl]
    rfl
  have step2 : parseMaterialsLine fl
      ⟨[⟨M, ⟨fl.zero, fl.zero, fl.zero, fl.zero⟩⟩], [(M, 0)], some 0⟩
      ("Kd".toList ++ ' ' :: (r ++ ' ' :: (g ++ ' ' :: b))) =
      Result.ok ⟨[⟨M, ⟨fr, fg, fb, fl.zero⟩⟩], [(M, 0)], some 0⟩ := by
    rw [parseMaterialsLine_eq, if_neg l2]
    have hk : keyword ("Kd".toList ++ ' ' :: (r ++ ' ' :: (g ++ ' ' :: b))) = "Kd".toList := by
      rw [keyword, k2]; rfl
    have ha : lineArgs ("Kd".toList ++ ' ' :: (r ++ ' ' :: (g ++ ' ' :: b))) = [r, g, b] := by
      rw [lineArgs, k2]; rfl
    rw [hk, ha, if_neg (by decide), if_neg (by decide), if_pos rfl,
      parseFloat32Array_three fl r g b fr fg fb pr pg pb]
    rfl
  rw [parseMaterials, hlines]
  simp only [parseMaterialsLines, step1, step2, Result.bind]
  rfl

/-- The text `newmtl M`, `Kd 0.64 0.64 0.64` yields the mapping with the single
key `M` and the diffuse colour `[0.64, 0.64, 0.64, 0]`. -/
theorem parseMaterials_newmtl_Kd_witness :
    ("newmtl".toList ++ ' ' :: "M".toList) ++ '\n' :: ("Kd".toList ++ ' ' ::
        ("0.64".toList ++ ' ' :: ("0.64".toList ++ ' ' :: "0.64".toList))) =
      "newmtl M\nKd 0.64 0.64 0.64".toList ∧
    parseMaterials exampleFloats (("newmtl".toList ++ ' ' :: "M".toList) ++ '\n' ::
        ("Kd".toList ++ ' ' ::
          ("0.64".toList ++ ' ' :: ("0.64".toList ++ ' ' :: "0.64".toList)))) =
      Result.ok [("M".toList, ⟨"M".toList,
        ⟨"0.64".toList, "0.64".toList, "0.64".toList, exampleFloats.zero⟩⟩)] :=
  ⟨by decide,
    parseMaterials_newmtl_Kd exampleFloats "M".toList "0.64".toList "0.64".toList
      "0.64".toList "0.64".toList "0.64".toList "0.64".toList
      ⟨by decide, by decide⟩ ⟨by decide, by decide⟩ ⟨by decide, by decide⟩
      ⟨by decide, by decide⟩ (by decide) (by decide) (by decide)⟩

/-! ## Undeclared material names -/

theorem appendFace_sameOutcome {F : Type} (st st1 : ObjState F) (f : Face)
    (h1 : st.subMesh = st1.subMesh)
    (h2 : st.mesh.SubMeshes.length = st1.mesh.SubMeshes.length) :
    SameOutcome (appendFace st f) (appendFace st1 f) := by
  simp only [appendFace, h1]
  cases st1.subMesh with
  | none => exact True.intro
  | some i =>
    by_cases hi : i < st.mesh.SubMeshes.length
    · have hi1 : i < st1.mesh.SubMeshes.length := by omega
      simp only [List.getElem?_eq_getElem hi, List.getElem?_eq_getElem hi1, SameOutcome,
        List.length_set, h2, and_self]
    · have e : st.mesh.SubMeshes[i]? = none := List.getElem?_eq_none (by omega)
      have e1 : st1.mesh.SubMeshes[i]? = none := List.getElem?_eq_none (by omega)
      simp only [e, e1, SameOutcome]

/-- One line has outcomes of the same kind under two mappings. -/
theorem parseObjLine_sameOutcome {F : Type} (fl : Float32Ops F) (M M1 : MaterialMap F)
    (st st1 : ObjState F) (l : GoString) (h1 : st.subMesh = st1.subMesh)
    (h2 : st.mesh.SubMeshes.length = st1.mesh.SubMeshes.length) :
    SameOutcome (parseObjLine fl M st l) (parseObjLine fl M1 st1 l) := by
  have hok : SameOutcome (Result.ok st) (Result.ok st1) := ⟨h1, h2⟩
  rw [parseObjLine_eq, parseObjLine_eq]
  by_cases hl : (TrimSpace l).length = 0
  · rw [if_pos hl, if_pos hl]; exact hok
  rw [if_neg hl, if_neg hl]
  by_cases k1 : keyword l = "#".toList
  · rw [if_pos k1, if_pos k1]; exact hok
  rw [if_neg k1, if_neg k1]
  by_cases k2 : keyword l = "mtllib".toList
  · rw [if_pos k2, if_pos k2]; exact hok
  rw [if_neg k2, if_neg k2]
  by_cases k3 : keyword l = "usemtl".toList
  · rw [if_pos k3, if_pos k3]
    cases parseMaterialName (lineArgs l) with
    | ok nm =>
      simp only [Result.bind, SameOutcome, List.length_append, List.length_singleton, h2,
        and_self]
    | error e => exact rfl
    | panic => exact True.intro
  rw [if_neg k3, if_neg k3]
  by_cases k4 : keyword l = "o".toList
  · rw [if_pos k4, if_pos k4]
    cases parseObjectName (lineArgs l) with
    | ok nm => exact ⟨h1, h2⟩
    | error e => exact rfl
    | panic => exact True.intro
  rw [if_neg k4, if_neg k4]
  by_cases k5 : keyword l = "s".toList
  · rw [if_pos k5, if_pos k5]; exact hok
  rw [if_neg k5, if_neg k5]
  by_cases k6 : keyword l = "v".toList
  · rw [if_pos k6, if_pos k6]
    cases parseVertex fl (lineArgs l) with
    | ok v => exact ⟨h1, h2⟩
    | error e => exact rfl
    | panic => exact True.intro
  rw [if_neg k6, if_neg k6]
  by_cases k7 : keyword l = "vn".toList
  · rw [if_pos k7, if_pos k7]
    cases parseVertex fl (lineArgs l) with
    | ok v => exact ⟨h1, h2⟩
    | error e => exact rfl
    | panic => exact True.intro
  rw [if_neg k7, if_neg k7]
  by_cases k8 : keyword l = "f".toList
  · rw [if_pos k8, if_pos k8]
    cases parseFace (lineArgs l) with
    | ok f => exact appendFace_sameOutcome st st1 f h1 h2
    | error e => exact rfl
    | panic => exact True.intro
  · rw [if_neg k8, if_neg k8]
    exact rfl

/-- The loop of `parseObj` has outcomes of the same kind under two mappings. -/
theorem parseObjLines_sameOutcome {F : Type} (fl : Float32Ops F) (M M1 : MaterialMap F) :
    ∀ (lines : List GoString) (st st1 : ObjState F), st.subMesh = st1.subMesh →
      st.mesh.SubMeshes.length = st1.mesh.SubMeshes.length →
      SameOutcome (parseObjLines fl M lines st) (parseObjLines fl M1 lines st1) := by
  intro lines
  induction lines with
  | nil => intro st st1 h1 h2; exact ⟨h1, h2⟩
  | cons l ls ih =>
    intro st st1 h1 h2
    have hstep := parseObjLine_sameOutcome fl M M1 st st1 l h1 h2
    simp only [parseObjLines]
    cases ha : parseObjLine fl M st l with
    | ok a =>
      cases hb : parseObjLine fl M1 st1 l with
      | ok b =>
        rw [ha, hb] at hstep
        exact ih a b hstep.1 hstep.2
      | error e => rw [ha, hb] at hstep; exact hstep.elim
      | panic => rw [ha, hb] at hstep; exact hstep.elim
    | error e =>
      cases hb : parseObjLine fl M1 st1 l with
      | ok b => rw [ha, hb] at hstep; exact hstep.elim
      | error e1 => rw [ha, hb] at hstep; exact hstep
      | panic => rw [ha, hb] at hstep; exact hstep.elim
    | panic =>
      cases hb : parseObjLine fl M1 st1 l with
      | ok b => rw [ha, hb] at hstep; exact hstep.elim
      | error e1 => rw [ha, hb] at hstep; exact hstep.elim
      | panic => exact True.intro

/-- A text that `parseObj` accepts with one mapping is accepted with every
mapping: whether a name is declared plays no part in acceptance. -/
theorem parseObj_accepts_any_mapping {F : Type} (fl : Float32Ops F) (M M1 : MaterialMap F)
    (objStr : GoString) (mesh : ObjMesh F) (h : parseObj fl objStr M = Result.ok mesh) :
    ∃ mesh1, parseObj fl objStr M1 = Result.ok mesh1 := by
  obtain ⟨st, hrun, _⟩ := parseObj_ok fl M objStr mesh h
  have hs := parseObjLines_sameOutcome fl M M1 (Split objStr '\n') (initialState M)
    (initialState M1) rfl rfl
  rw [hrun] at hs
  cases hb : parseObjLines fl M1 (Split objStr '\n') (initialState M1) with
  | ok b => exact ⟨b.mesh, by rw [parseObj, hb]; rfl⟩
  | error e => rw [hb] at hs; exact hs.elim
  | panic => rw [hb] at hs; exact hs.elim

/-- A `usemtl` line with exactly one name is accepted in every state and under
every mapping, whether the mapping declares the name or not: it adds the
sub-mesh with that name and points `subMesh` at it. -/
theorem parseObjLine_usemtl {F : Type} (fl : Float32Ops F) (M : MaterialMap F)
    (st : ObjState F) (l name : GoString) (hk : keyword l = "usemtl".toList)
    (ha : lineArgs l = [name]) :
    parseObjLine fl M st l =
      Result.ok
        { mesh := { st.mesh with SubMeshes := st.mesh.SubMeshes ++
            [⟨name, M.lookup name, []⟩] },
          subMesh := some st.mesh.SubMeshes.length } := by
  have hl : ¬ (TrimSpace l).length = 0 := by
    intro e
    have e1 : TrimSpace l = [] := List.length_eq_zero.1 e
    have : keyword l = [] := by simp only [keyword, lineTokens, e1]; rfl
    rw [this] at hk
    revert hk; decide
  have k1 : ¬ keyword l = "#".toList := by rw [hk]; decide
  have k2 : ¬ keyword l = "mtllib".toList := by rw [hk]; decide
  rw [parseObjLine_eq, if_neg hl, if_neg k1, if_neg k2, if_pos hk, ha]
  rfl

/-- C9: in the mesh that `parseObj` returns, `SubMeshes` has one entry per
`usemtl` line, in order; each has the name on its line and the material that
the mapping holds for that name, none when the name is not declared.  An
undeclared name is never an error: a `usemtl` line with one name is accepted in
every state whatever the mapping declares, and a text accepted with one mapping
is accepted with every mapping. -/
theorem parseObj_subMeshes {F : Type} (fl : Float32Ops F) (M : MaterialMap F)
    (objStr : GoString) (mesh : ObjMesh F) (h : parseObj fl objStr M = Result.ok mesh) :
    mesh.SubMeshes.map (fun sm => (sm.MaterialName, sm.Material)) =
        ((Split objStr '\n').filter isUsemtlLine).map
          (fun l => (usemtlName l, M.lookup (usemtlName l))) ∧
      (∀ (M1 : MaterialMap F) (st : ObjState F) (l name : GoString),
        keyword l = "usemtl".toList → lineArgs l = [name] →
        parseObjLine fl M1 st l =
          Result.ok
            { mesh := { st.mesh with SubMeshes := st.mesh.SubMeshes ++
                [⟨name, M1.lookup name, []⟩] },
              subMesh := some st.mesh.SubMeshes.length }) ∧
      (∀ M1 : MaterialMap F, ∃ mesh1, parseObj fl objStr M1 = Result.ok mesh1 ∧
        mesh1.SubMeshes.map (fun sm => (sm.MaterialName, sm.Material)) =
          ((Split objStr '\n').filter isUsemtlLine).map
            (fun l => (usemtlName l, M1.lookup (usemtlName l)))) := by
  refine ⟨parseObj_subMeshes_names fl M objStr mesh h, ?_, ?_⟩
  · intro M1 st l name hk ha
    exact parseObjLine_usemtl fl M1 st l name hk ha
  · intro M1
    obtain ⟨mesh1, h1⟩ := parseObj_accepts_any_mapping fl M M1 objStr mesh h
    exact ⟨mesh1, h1, parseObj_subMeshes_names fl M1 objStr mesh1 h1⟩

set_option maxRecDepth 100000 in
/-- Under a mapping that declares only `Mat`, the text `usemtl Nope`,
`usemtl Mat` is accepted and yields the sub-mesh `Nope` with a nil material and
the sub-mesh `Mat` with its material; the line `usemtl Nope` alone is accepted
under that mapping; and the cube text, parsed with a nil mapping, yields one
sub-mesh named `Material` with a nil material, and is accepted under the
mapping that does not declare `Material`. -/
theorem parseObj_subMeshes_witness :
    parseObj exampleFloats twoNamesObj oneMaterial = Result.ok twoNamesMesh ∧
    twoNamesMesh.SubMeshes.map (fun sm => (sm.MaterialName, sm.Material)) =
      [("Nope".toList, none),
       ("Mat".toList,
        some ⟨"Mat".toList, ⟨"1".toList, "0".toList, "0".toList, "0".toList⟩⟩)] ∧
    parseObjLine exampleFloats oneMaterial (initialState oneMaterial) "usemtl Nope".toList =
      Result.ok ⟨⟨[], oneMaterial, [], [], [⟨"Nope".toList, none, []⟩]⟩, some 0⟩ ∧
    parseObj exampleFloats cubeObj [] = Result.ok cubeMesh ∧
    cubeMesh.SubMeshes.map (fun sm => (sm.MaterialName, sm.Material)) =
      [("Material".toList, none)] ∧
    (parseObj exampleFloats cubeObj oneMaterial).isOk = true :=
  ⟨by decide,
    (parseObj_subMeshes exampleFloats oneMaterial twoNamesObj twoNamesMesh (by decide)).1.trans
      (by decide),
    (parseObj_subMeshes exampleFloats oneMaterial twoNamesObj twoNamesMesh (by decide)).2.1
      oneMaterial (initialState oneMaterial) "usemtl Nope".toList "Nope".toList
      (by decide) (by decide),
    by decide,
    (parseObj_subMeshes exampleFloats [] cubeObj cubeMesh (by decide)).1.trans (by decide),
    ((parseObj_subMeshes exampleFloats [] cubeObj cubeMesh (by decide)).2.2 oneMaterial).elim
      fun m hm => by rw [hm.1]; rfl⟩

end Obj
